import Mathlib

/-!
# imgproxy: Prometheus instrumentation (`prometheus.go`)

A shallow embedding of `prometheus.go`: the package-level variables become the
fields of `State`, every function becomes a state-passing function returning
`Except Panic State`, and the three library layers the file leans on are
modelled explicitly:

* Go `float64` arithmetic (`float64(cap) / 1024.0 / 1024.0`, `Duration.Seconds`)
  as correctly rounded arithmetic on the rationals (round to nearest, ties to
  even, 53 bit significand, gradual underflow);
* the Prometheus client instruments (counter, histogram, labelled vectors) as
  plain values: a counter is its count, a histogram is the list of the values
  observed so far, a gauge is the last value set, a vector is a map from
  label values to children that `With` extends on demand; label values are Go
  strings, that is byte strings, and `With` refuses (panics on) a value that
  is not valid UTF-8;
* Go references: a nil pointer or nil interface is `none`, and calling a method
  through it is the run-time panic `Panic.nilDereference`. A panic ends the
  call without a resulting state (`Except.error`).
-/

namespace Imgproxy

/-! ## float64 -/

/-- Finite float64 values, each identified with the rational it denotes.
Infinities, NaN and the sign of zero are left out: the program converts machine
integers and divides by the nonzero constants 1024 and 1e9 only, so every value
it computes is finite. -/
abbrev Float64 := ℚ

/-- Round a rational to the nearest integer, ties to the even neighbour. -/
def roundHalfEven (q : ℚ) : ℤ :=
  let f := ⌊q⌋
  let r := q - f
  if r < 1 / 2 then f
  else if 1 / 2 < r then f + 1
  else if f % 2 = 0 then f else f + 1

/-- Binary exponent of the unit in the last place of the float64 binade holding
`q`: 52 below the exponent of `q`, and never below the subnormal exponent
-1074. -/
def f64ulpExp (q : ℚ) : ℤ := max (Int.log 2 |q| - 52) (-1074)

/-- IEEE 754 binary64 rounding (round to nearest, ties to even) of an exact
result. -/
def f64round (q : ℚ) : Float64 :=
  (roundHalfEven (q / (2 : ℚ) ^ f64ulpExp q) : ℚ) * (2 : ℚ) ^ f64ulpExp q

/-- Go conversion `float64(n)` of a machine integer (of at most 64 bits, so
that the result is finite). -/
def f64ofInt (n : Int) : Float64 := f64round n

/-- Go `x / y` on float64 (for `y` nonzero). -/
def f64div (x y : Float64) : Float64 := f64round (x / y)

/-- Go `x + y` on float64. -/
def f64add (x y : Float64) : Float64 := f64round (x + y)

/-- The rational `y` is a float64 whose exponent is at least `lo`: an integer
significand of at most 53 bits times a power of two. -/
def IsF64 (lo : ℤ) (y : ℚ) : Prop :=
  ∃ m e : ℤ, lo ≤ e ∧ |m| ≤ 2 ^ 53 ∧ y = (m : ℚ) * (2 : ℚ) ^ e

/-! ## package `time` -/

/-- Largest `time.Duration` (int64 nanoseconds). -/
def maxDuration : Int := 2 ^ 63 - 1

/-- Smallest `time.Duration`. -/
def minDuration : Int := -(2 ^ 63)

/-- Go `time.Since(t)` evaluated when the monotonic clock reads `now`
(nanoseconds): the difference of the two readings, saturated to the range of
`time.Duration`. -/
def timeSince (now t : Int) : Int :=
  if maxDuration < now - t then maxDuration
  else if now - t < minDuration then minDuration
  else now - t

/-- Go `Duration.Seconds`: `sec := d / Second; nsec := d % Second;
float64(sec) + float64(nsec)/1e9`, with Go's truncating integer division. -/
def Duration.Seconds (d : Int) : Float64 :=
  let sec := Int.tdiv d 1000000000
  let nsec := Int.tmod d 1000000000
  f64add (f64ofInt sec) (f64div (f64ofInt nsec) 1000000000)

/-! ## Go strings -/

/-- A Go `string`: an arbitrary sequence of bytes. -/
abbrev GoString := List UInt8

/-- The Go string holding the UTF-8 encoding of a text, as a string literal of
the source does. -/
def goString (s : String) : GoString := s.toUTF8.data.toList

/-- Go `unicode/utf8`, table `first` with `acceptRanges`: for a leading byte
above 0x7F, the length of the sequence it starts and the range allowed for the
second byte; `none` for a byte that cannot start a sequence. -/
def utf8First (b : UInt8) : Option (Nat × UInt8 × UInt8) :=
  if b < 0xC2 then none
  else if b ≤ 0xDF then some (2, 0x80, 0xBF)
  else if b = 0xE0 then some (3, 0xA0, 0xBF)
  else if b ≤ 0xEC then some (3, 0x80, 0xBF)
  else if b = 0xED then some (3, 0x80, 0x9F)
  else if b ≤ 0xEF then some (3, 0x80, 0xBF)
  else if b = 0xF0 then some (4, 0x90, 0xBF)
  else if b ≤ 0xF3 then some (4, 0x80, 0xBF)
  else if b = 0xF4 then some (4, 0x80, 0x8F)
  else none

/-- Go `utf8.ValidString`: the bytes are a sequence of well-formed UTF-8
encodings (no stray or missing continuation byte, no overlong form, no
surrogate, nothing above U+10FFFF). -/
def utf8ValidString : GoString → Bool
  | [] => true
  | b0 :: rest =>
    if b0 < 0x80 then utf8ValidString rest
    else
      match utf8First b0, rest with
      | some (2, lo, hi), c1 :: r => lo ≤ c1 && c1 ≤ hi && utf8ValidString r
      | some (3, lo, hi), c1 :: c2 :: r =>
        lo ≤ c1 && c1 ≤ hi && 0x80 ≤ c2 && c2 ≤ 0xBF && utf8ValidString r
      | some (4, lo, hi), c1 :: c2 :: c3 :: r =>
        lo ≤ c1 && c1 ≤ hi && 0x80 ≤ c2 && c2 ≤ 0xBF && 0x80 ≤ c3 && c3 ≤ 0xBF &&
          utf8ValidString r
      | _, _ => false

/-! ## Prometheus client instruments -/

/-- Run-time panics that abort a call. -/
inductive Panic where
  | nilDereference
  | inconsistentLabels
  | invalidLabelValue
  | alreadyRegistered (name : String)
  deriving DecidableEq, Repr

/-- Descriptor of an instrument: the `Name` and `Help` of its options and the
names of its variable labels. -/
structure Desc where
  Name : String
  Help : String
  labelNames : List String
  deriving DecidableEq, Repr

/-- Go `prometheus.Labels`: label name to label value. -/
abbrev Labels := List (String × GoString)

/-- Children of a labelled vector, keyed by the label values. -/
abbrev Series (α : Type) := List GoString → Option α

/-- The series map with the child at `k` replaced by `v`. -/
def Series.set {α : Type} (f : Series α) (k : List GoString) (v : α) : Series α :=
  fun k' => if k' = k then some v else f k'

/-- The client library's check of a label map against the label names of a
vector, as `With` performs it: the number of labels must match, every label
value must be valid UTF-8, and every label name of the vector must be present.
Returns the label values in the order of the vector's label names. -/
def labelValues (names : List String) (labels : Labels) : Except Panic (List GoString) :=
  if labels.length ≠ names.length then .error .inconsistentLabels
  else if labels.any (fun p => !utf8ValidString p.2) then .error .invalidLabelValue
  else
    match names.mapM (fun n => labels.lookup n) with
    | none => .error .inconsistentLabels
    | some k => .ok k

/-- Go `prometheus.Counter`: the count. -/
structure Counter where
  desc : Desc
  val : Nat

/-- Go `prometheus.CounterVec`. -/
structure CounterVec where
  desc : Desc
  series : Series Nat

/-- Go `prometheus.Histogram`: the observations so far, oldest first. -/
structure Histogram where
  desc : Desc
  observations : List Float64

/-- Go `prometheus.HistogramVec`. -/
structure HistogramVec where
  desc : Desc
  series : Series (List Float64)

/-- Go `prometheus.GaugeVec`. -/
structure GaugeVec where
  desc : Desc
  series : Series Float64

/-- Process state: the package-level variables of `prometheus.go`, the
histogram objects they may refer to, the descriptors this program has added to
the default registry, and the addresses of the exposition servers whose
goroutine was launched. A `prometheus.Histogram` interface value is `none`
(nil) or the index of a histogram object in `heap`. -/
structure State where
  prometheusEnabled : Bool
  prometheusRequestsTotal : Option Counter
  prometheusErrorsTotal : Option CounterVec
  prometheusRequestDuration : Option Nat
  prometheusDownloadDuration : Option Nat
  prometheusProcessingDuration : Option Nat
  prometheusBufferSize : Option HistogramVec
  prometheusBufferDefaultSize : Option GaugeVec
  prometheusBufferMaxSize : Option GaugeVec
  heap : List Histogram
  registry : List Desc
  servers : List String

/-- The `var (...)` block: `prometheusEnabled = false`, every instrument
variable at its zero value nil. -/
def State.initial : State :=
  { prometheusEnabled := false
    prometheusRequestsTotal := none
    prometheusErrorsTotal := none
    prometheusRequestDuration := none
    prometheusDownloadDuration := none
    prometheusProcessingDuration := none
    prometheusBufferSize := none
    prometheusBufferDefaultSize := none
    prometheusBufferMaxSize := none
    heap := []
    registry := []
    servers := [] }

/-- Go `prometheus.NewCounter`. -/
def NewCounter (name help : String) : Counter :=
  { desc := { Name := name, Help := help, labelNames := [] }, val := 0 }

/-- Go `prometheus.NewCounterVec`. -/
def NewCounterVec (name help : String) (labelNames : List String) : CounterVec :=
  { desc := { Name := name, Help := help, labelNames := labelNames }, series := fun _ => none }

/-- Go `prometheus.NewHistogram`: a fresh histogram object; the interface value
returned is its index. -/
def NewHistogram (name help : String) (s : State) : Nat × State :=
  (s.heap.length,
   { s with heap := s.heap ++
      [{ desc := { Name := name, Help := help, labelNames := [] }, observations := [] }] })

/-- Go `prometheus.NewHistogramVec`. -/
def NewHistogramVec (name help : String) (labelNames : List String) : HistogramVec :=
  { desc := { Name := name, Help := help, labelNames := labelNames }, series := fun _ => none }

/-- Go `prometheus.NewGaugeVec`. -/
def NewGaugeVec (name help : String) (labelNames : List String) : GaugeVec :=
  { desc := { Name := name, Help := help, labelNames := labelNames }, series := fun _ => none }

/-- Go `prometheus.Collector`: the instruments handed to the registry. -/
inductive Collector where
  | counter (c : Counter)
  | counterVec (v : CounterVec)
  | histogram (m : Nat)
  | histogramVec (v : HistogramVec)
  | gaugeVec (v : GaugeVec)

/-- Go `Collector.Describe`: the descriptor of a collector. -/
def Collector.Describe (s : State) : Collector → Option Desc
  | .counter c => some c.desc
  | .counterVec v => some v.desc
  | .histogram m => s.heap[m]?.map (fun h => h.desc)
  | .histogramVec v => some v.desc
  | .gaugeVec v => some v.desc

/-- Register one collector with the default registry; a second collector of
the same name is refused. -/
def Register (c : Collector) (s : State) : Except Panic State :=
  match c.Describe s with
  | none => .error .nilDereference
  | some d =>
    if s.registry.any (fun r => r.Name == d.Name) then .error (.alreadyRegistered d.Name)
    else .ok { s with registry := s.registry ++ [d] }

/-- Go `prometheus.MustRegister(cs...)`: registers in order, panics at the
first refusal. -/
def MustRegister : List Collector → State → Except Panic State
  | [], s => .ok s
  | c :: cs, s =>
    match Register c s with
    | .error e => .error e
    | .ok s1 => MustRegister cs s1

/-- Go `(*CounterVec).With(labels)`: the child for these label values, created
at 0 on first use. Returns the vector and the key of the child. -/
def CounterVec.With (v : Option CounterVec) (labels : Labels) :
    Except Panic (CounterVec × List GoString) :=
  match v with
  | none => .error .nilDereference
  | some v =>
    match labelValues v.desc.labelNames labels with
    | .error e => .error e
    | .ok k =>
      match v.series k with
      | some _ => .ok (v, k)
      | none => .ok ({ v with series := v.series.set k 0 }, k)

/-- Go `Counter.Inc` on the child at `k`. -/
def CounterVec.Inc (v : CounterVec) (k : List GoString) : CounterVec :=
  match v.series k with
  | some n => { v with series := v.series.set k (n + 1) }
  | none => v

/-- Go `(*HistogramVec).With(labels)`: the child, created empty on first use. -/
def HistogramVec.With (v : Option HistogramVec) (labels : Labels) :
    Except Panic (HistogramVec × List GoString) :=
  match v with
  | none => .error .nilDereference
  | some v =>
    match labelValues v.desc.labelNames labels with
    | .error e => .error e
    | .ok k =>
      match v.series k with
      | some _ => .ok (v, k)
      | none => .ok ({ v with series := v.series.set k [] }, k)

/-- Go `Observer.Observe` on the child at `k`. -/
def HistogramVec.Observe (v : HistogramVec) (k : List GoString) (x : Float64) : HistogramVec :=
  match v.series k with
  | some obs => { v with series := v.series.set k (obs ++ [x]) }
  | none => v

/-- Go `(*GaugeVec).With(labels)`: the child, created at 0 on first use. -/
def GaugeVec.With (v : Option GaugeVec) (labels : Labels) :
    Except Panic (GaugeVec × List GoString) :=
  match v with
  | none => .error .nilDereference
  | some v =>
    match labelValues v.desc.labelNames labels with
    | .error e => .error e
    | .ok k =>
      match v.series k with
      | some _ => .ok (v, k)
      | none => .ok ({ v with series := v.series.set k 0 }, k)

/-- Go `Gauge.Set` on the child at `k`. -/
def GaugeVec.Set (v : GaugeVec) (k : List GoString) (x : Float64) : GaugeVec :=
  match v.series k with
  | some _ => { v with series := v.series.set k x }
  | none => v

/-- Go `m.Observe(x)` through a `prometheus.Histogram` interface value: a
panic on the nil interface, otherwise one more observation in the object
referred to. (An index without an object cannot arise from a Go reference; it
is treated like nil.) -/
def Histogram.Observe (m : Option Nat) (x : Float64) (s : State) : Except Panic State :=
  match m with
  | none => .error .nilDereference
  | some a =>
    match s.heap[a]? with
    | none => .error .nilDereference
    | some h =>
      .ok { s with heap := s.heap.set a { h with observations := h.observations ++ [x] } }

/-! ## `prometheus.go` -/

/-- The configuration value read by `initPrometheus`. -/
structure Config where
  PrometheusBind : String

/-- Source `initPrometheus`. -/
def initPrometheus (conf : Config) (s : State) : Except Panic State :=
  if conf.PrometheusBind.utf8ByteSize = 0 then
    .ok s
  else
    let requestsTotal := NewCounter "requests_total"
      "A counter of the total number of HTTP requests imgproxy processed."
    let s := { s with prometheusRequestsTotal := some requestsTotal }
    let errorsTotal := NewCounterVec "errors_total"
      "A counter of the occured errors separated by type." ["type"]
    let s := { s with prometheusErrorsTotal := some errorsTotal }
    let (requestDuration, s) := NewHistogram "request_duration_seconds"
      "A histogram of the response latency." s
    let s := { s with prometheusRequestDuration := some requestDuration }
    let (downloadDuration, s) := NewHistogram "download_duration_seconds"
      "A histogram of the source image downloading latency." s
    let s := { s with prometheusDownloadDuration := some downloadDuration }
    let (processingDuration, s) := NewHistogram "processing_duration_seconds"
      "A histogram of the image processing latency." s
    let s := { s with prometheusProcessingDuration := some processingDuration }
    let bufferSize := NewHistogramVec "buffer_size_megabytes"
      "A histogram of the buffer size in megabytes." ["type"]
    let s := { s with prometheusBufferSize := some bufferSize }
    let bufferDefaultSize := NewGaugeVec "buffer_default_size_megabytes"
      "A gauge of the buffer default size in megabytes." ["type"]
    let s := { s with prometheusBufferDefaultSize := some bufferDefaultSize }
    let bufferMaxSize := NewGaugeVec "buffer_max_size_megabytes"
      "A gauge of the buffer max size in megabytes." ["type"]
    let s := { s with prometheusBufferMaxSize := some bufferMaxSize }
    match MustRegister
        [.counter requestsTotal,
         .counterVec errorsTotal,
         .histogram requestDuration,
         .histogram downloadDuration,
         .histogram processingDuration,
         .histogramVec bufferSize,
         .gaugeVec bufferDefaultSize,
         .gaugeVec bufferMaxSize] s with
    | .error e => .error e
    | .ok s =>
      let s := { s with prometheusEnabled := true }
      .ok { s with servers := s.servers ++ [conf.PrometheusBind] }

/-- The captured variables of the closure returned by
`startPrometheusDuration`: the histogram `m` and the start time `t`. -/
structure StopFn where
  m : Option Nat
  t : Int

/-- Source `startPrometheusDuration`, called when the clock reads `now`
(`t := time.Now()`). -/
def startPrometheusDuration (m : Option Nat) (now : Int) : StopFn :=
  { m := m, t := now }

/-- Invoking the closure returned by `startPrometheusDuration` when the clock
reads `now`: `m.Observe(time.Since(t).Seconds())`. -/
def StopFn.call (f : StopFn) (now : Int) (s : State) : Except Panic State :=
  Histogram.Observe f.m (Duration.Seconds (timeSince now f.t)) s

/-- Source `incrementPrometheusErrorsTotal`. -/
def incrementPrometheusErrorsTotal (t : GoString) (s : State) : Except Panic State :=
  match CounterVec.With s.prometheusErrorsTotal [("type", t)] with
  | .error e => .error e
  | .ok (v, k) => .ok { s with prometheusErrorsTotal := some (v.Inc k) }

/-- Source `observePrometheusBufferSize`. -/
def observePrometheusBufferSize (t : GoString) (cap : Int) (s : State) : Except Panic State :=
  let size := f64div (f64div (f64ofInt cap) 1024) 1024
  match HistogramVec.With s.prometheusBufferSize [("type", t)] with
  | .error e => .error e
  | .ok (v, k) => .ok { s with prometheusBufferSize := some (v.Observe k size) }

/-- Source `setPrometheusBufferDefaultSize`. -/
def setPrometheusBufferDefaultSize (t : GoString) (cap : Int) (s : State) : Except Panic State :=
  let size := f64div (f64div (f64ofInt cap) 1024) 1024
  match GaugeVec.With s.prometheusBufferDefaultSize [("type", t)] with
  | .error e => .error e
  | .ok (v, k) => .ok { s with prometheusBufferDefaultSize := some (v.Set k size) }

/-- Source `setPrometheusBufferMaxSize`. -/
def setPrometheusBufferMaxSize (t : GoString) (cap : Int) (s : State) : Except Panic State :=
  let size := f64div (f64div (f64ofInt cap) 1024) 1024
  match GaugeVec.With s.prometheusBufferMaxSize [("type", t)] with
  | .error e => .error e
  | .ok (v, k) => .ok { s with prometheusBufferMaxSize := some (v.Set k size) }

/-- Go error values as compared by the server goroutine: the sentinel
`http.ErrServerClosed`, or any other error (identified by its text). -/
inductive ServeError where
  | ErrServerClosed
  | other (msg : String)
  deriving DecidableEq, Repr

/-- Go `err.Error()`. -/
def ServeError.Error : ServeError → String
  | .ErrServerClosed => "http: Server closed"
  | .other msg => msg

/-- Calls made to the logging facility. -/
inductive LogEvent where
  | notice (msg : String)
  | fatal (msg : String)
  deriving DecidableEq, Repr

/-- Body of the goroutine launched by `initPrometheus` for the server at
`addr`, given the result `err` of `s.ListenAndServe()` (`none` is nil): the log
calls it makes, in order. -/
def serverTask (addr : String) (err : Option ServeError) : List LogEvent :=
  [LogEvent.notice ("Starting Prometheus server at " ++ addr ++ "\n")] ++
  match err with
  | none => []
  | some e => if e ≠ ServeError.ErrServerClosed then [LogEvent.fatal e.Error] else []

/-- Modelled from the spec: `incrementRequests()`, the increment of the request
counter, whose code (`prometheusRequestsTotal.Inc()` at the call sites) is not
part of `prometheus.go`: a no-op when the registry is disabled, otherwise it
"increments the unlabeled request counter by 1". -/
def incrementRequests (s : State) : Except Panic State :=
  if s.prometheusEnabled then
    match s.prometheusRequestsTotal with
    | none => .error .nilDereference
    | some c => .ok { s with prometheusRequestsTotal := some { c with val := c.val + 1 } }
  else .ok s

/-- The calls the rest of the program makes on the instruments of
`prometheus.go`. -/
inductive Call where
  | initPrometheus (conf : Config)
  | incrementRequests
  | incrementPrometheusErrorsTotal (t : GoString)
  | observePrometheusBufferSize (t : GoString) (cap : Int)
  | setPrometheusBufferDefaultSize (t : GoString) (cap : Int)
  | setPrometheusBufferMaxSize (t : GoString) (cap : Int)
  | stop (f : StopFn) (now : Int)

/-- Effect of one call. -/
def Call.run : Call → State → Except Panic State
  | .initPrometheus conf, s => Imgproxy.initPrometheus conf s
  | .incrementRequests, s => Imgproxy.incrementRequests s
  | .incrementPrometheusErrorsTotal t, s => Imgproxy.incrementPrometheusErrorsTotal t s
  | .observePrometheusBufferSize t cap, s => Imgproxy.observePrometheusBufferSize t cap s
  | .setPrometheusBufferDefaultSize t cap, s => Imgproxy.setPrometheusBufferDefaultSize t cap s
  | .setPrometheusBufferMaxSize t cap, s => Imgproxy.setPrometheusBufferMaxSize t cap s
  | .stop f now, s => f.call now s

/-- Effect of a sequence of calls, stopping at the first panic. -/
def runCalls : List Call → State → Except Panic State
  | [], s => .ok s
  | c :: cs, s =>
    match c.run s with
    | .error e => .error e
    | .ok s1 => runCalls cs s1

/-- States the process can be in: those some sequence of calls leads to from
the initial state. -/
def Reachable (s : State) : Prop := ∃ cs : List Call, runCalls cs State.initial = .ok s

/-- Every instrument variable holds the instrument `initPrometheus` creates for
it: the counter, the three vectors labelled by "type", and three live histogram
objects. -/
def Allocated (s : State) : Prop :=
  (∃ c, s.prometheusRequestsTotal = some c ∧ c.desc.Name = "requests_total") ∧
  (∃ v, s.prometheusErrorsTotal = some v ∧ v.desc.Name = "errors_total" ∧
    v.desc.labelNames = ["type"]) ∧
  (∃ a h, s.prometheusRequestDuration = some a ∧ s.heap[a]? = some h ∧
    h.desc.Name = "request_duration_seconds") ∧
  (∃ a h, s.prometheusDownloadDuration = some a ∧ s.heap[a]? = some h ∧
    h.desc.Name = "download_duration_seconds") ∧
  (∃ a h, s.prometheusProcessingDuration = some a ∧ s.heap[a]? = some h ∧
    h.desc.Name = "processing_duration_seconds") ∧
  (∃ v, s.prometheusBufferSize = some v ∧ v.desc.Name = "buffer_size_megabytes" ∧
    v.desc.labelNames = ["type"]) ∧
  (∃ v, s.prometheusBufferDefaultSize = some v ∧
    v.desc.Name = "buffer_default_size_megabytes" ∧ v.desc.labelNames = ["type"]) ∧
  (∃ v, s.prometheusBufferMaxSize = some v ∧
    v.desc.Name = "buffer_max_size_megabytes" ∧ v.desc.labelNames = ["type"])

/-- Lifecycle invariant: a disabled process is still in its initial state, an
enabled one has every instrument allocated. -/
def Lifecycle (s : State) : Prop :=
  (s.prometheusEnabled = false → s = State.initial) ∧
  (s.prometheusEnabled = true → Allocated s)

/-- The state `initPrometheus` produces from the initial state for a non-empty
bind address (see `initPrometheus_initial`). -/
def State.fresh (bind : String) : State :=
  { prometheusEnabled := true
    prometheusRequestsTotal := some
      { desc := { Name := "requests_total",
                  Help := "A counter of the total number of HTTP requests imgproxy processed.",
                  labelNames := [] },
        val := 0 }
    prometheusErrorsTotal := some
      { desc := { Name := "errors_total",
                  Help := "A counter of the occured errors separated by type.",
                  labelNames := ["type"] },
        series := fun _ => none }
    prometheusRequestDuration := some 0
    prometheusDownloadDuration := some 1
    prometheusProcessingDuration := some 2
    prometheusBufferSize := some
      { desc := { Name := "buffer_size_megabytes",
                  Help := "A histogram of the buffer size in megabytes.",
                  labelNames := ["type"] },
        series := fun _ => none }
    prometheusBufferDefaultSize := some
      { desc := { Name := "buffer_default_size_megabytes",
                  Help := "A gauge of the buffer default size in megabytes.",
                  labelNames := ["type"] },
        series := fun _ => none }
    prometheusBufferMaxSize := some
      { desc := { Name := "buffer_max_size_megabytes",
                  Help := "A gauge of the buffer max size in megabytes.",
                  labelNames := ["type"] },
        series := fun _ => none }
    heap :=
      [{ desc := { Name := "request_duration_seconds",
                   Help := "A histogram of the response latency.", labelNames := [] },
         observations := [] },
       { desc := { Name := "download_duration_seconds",
                   Help := "A histogram of the source image downloading latency.",
                   labelNames := [] },
         observations := [] },
       { desc := { Name := "processing_duration_seconds",
                   Help := "A histogram of the image processing latency.", labelNames := [] },
         observations := [] }]
    registry :=
      [{ Name := "requests_total",
         Help := "A counter of the total number of HTTP requests imgproxy processed.",
         labelNames := [] },
       { Name := "errors_total",
         Help := "A counter of the occured errors separated by type.",
         labelNames := ["type"] },
       { Name := "request_duration_seconds",
         Help := "A histogram of the response latency.", labelNames := [] },
       { Name := "download_duration_seconds",
         Help := "A histogram of the source image downloading latency.", labelNames := [] },
       { Name := "processing_duration_seconds",
         Help := "A histogram of the image processing latency.", labelNames := [] },
       { Name := "buffer_size_megabytes",
         Help := "A histogram of the buffer size in megabytes.", labelNames := ["type"] },
       { Name := "buffer_default_size_megabytes",
         Help := "A gauge of the buffer default size in megabytes.", labelNames := ["type"] },
       { Name := "buffer_max_size_megabytes",
         Help := "A gauge of the buffer max size in megabytes.", labelNames := ["type"] }]
    servers := [bind] }

/-- The spec's unit conversion, "divide by 1,048,576": one float64 division of
the converted capacity. -/
def megabytes (capacityBytes : Int) : Float64 := f64div (f64ofInt capacityBytes) 1048576

/-- A call to one of the two gauge setters. -/
inductive GaugeCall where
  | setDefault (t : GoString) (cap : Int)
  | setMax (t : GoString) (cap : Int)

/-- The label a `GaugeCall` passes. -/
def GaugeCall.label : GaugeCall → GoString
  | .setDefault t _ => t
  | .setMax t _ => t

/-- The call a `GaugeCall` stands for. -/
def GaugeCall.toCall : GaugeCall → Call
  | .setDefault t cap => .setPrometheusBufferDefaultSize t cap
  | .setMax t cap => .setPrometheusBufferMaxSize t cap

/-- Capacity passed by the last `setPrometheusBufferDefaultSize` call with
label `t` in the sequence, if there is one. -/
def lastDefault (t : GoString) : List GaugeCall → Option Int
  | [] => none
  | c :: cs =>
    match lastDefault t cs with
    | some cap => some cap
    | none =>
      match c with
      | .setDefault t' cap => if t' = t then some cap else none
      | .setMax _ _ => none

/-- Capacity passed by the last `setPrometheusBufferMaxSize` call with label
`t` in the sequence, if there is one. -/
def lastMax (t : GoString) : List GaugeCall → Option Int
  | [] => none
  | c :: cs =>
    match lastMax t cs with
    | some cap => some cap
    | none =>
      match c with
      | .setDefault _ _ => none
      | .setMax t' cap => if t' = t then some cap else none

/-- Current value of the series labelled type=`t` of a gauge vector. -/
def gaugeValue (g : Option GaugeVec) (t : GoString) : Option Float64 :=
  match g with
  | none => none
  | some v => v.series [t]

/-! ## float64: exactness lemmas -/

theorem roundHalfEven_intCast (k : ℤ) : roundHalfEven (k : ℚ) = k := by
  simp [roundHalfEven]

theorem roundHalfEven_bounds (x : ℚ) : ⌊x⌋ ≤ roundHalfEven x ∧ roundHalfEven x ≤ ⌈x⌉ := by
  have hfl : ⌊x⌋ ≤ ⌈x⌉ := Int.floor_le_ceil x
  by_cases hx : x - ⌊x⌋ = 0
  · have : roundHalfEven x = ⌊x⌋ := by
      simp [roundHalfEven, hx]
    rw [this]; exact ⟨le_refl _, hfl⟩
  · have hlt : (⌊x⌋ : ℚ) < x := by
      have := Int.floor_le x
      rcases lt_or_eq_of_le this with h | h
      · exact h
      · exact absurd (by rw [← h]; simp) hx
    have hc : ⌊x⌋ + 1 ≤ ⌈x⌉ := by
      have : ⌊x⌋ < ⌈x⌉ := by
        rw [Int.lt_ceil]; exact hlt
      omega
    unfold roundHalfEven
    simp only
    split_ifs <;> constructor <;> omega

theorem abs_roundHalfEven_le (x : ℚ) (N : ℤ) (h : |x| ≤ N) : |roundHalfEven x| ≤ N := by
  obtain ⟨h1, h2⟩ := roundHalfEven_bounds x
  have hx := abs_le.mp h
  have a : -N ≤ ⌊x⌋ := by
    rw [Int.le_floor]; push_cast; exact hx.1
  have b : ⌈x⌉ ≤ N := by
    rw [Int.ceil_le]; exact hx.2
  rw [abs_le]; constructor <;> omega

theorem f64round_of_multiple (y : ℚ) (k : ℤ) (h : y = (k : ℚ) * (2 : ℚ) ^ f64ulpExp y) :
    f64round y = y := by
  have h2 : (2 : ℚ) ^ f64ulpExp y ≠ 0 := zpow_ne_zero _ (by norm_num)
  have hk : y / (2 : ℚ) ^ f64ulpExp y = (k : ℚ) := by
    rw [div_eq_iff h2]; exact h
  unfold f64round
  rw [hk, roundHalfEven_intCast]
  exact h.symm

theorem f64round_strict (m e : ℤ) (he : -1074 ≤ e) (hm : |m| < 2 ^ 53) :
    f64round ((m : ℚ) * (2 : ℚ) ^ e) = (m : ℚ) * (2 : ℚ) ^ e := by
  by_cases hm0 : m = 0
  · subst hm0
    simp [f64round, roundHalfEven]
  set y : ℚ := (m : ℚ) * (2 : ℚ) ^ e with hy
  have h2pos : ∀ z : ℤ, (0 : ℚ) < (2 : ℚ) ^ z := fun z => zpow_pos (by norm_num) z
  have hypos : 0 < |y| := by
    rw [abs_pos, hy]
    exact mul_ne_zero (by exact_mod_cast hm0) (ne_of_gt (h2pos e))
  have hlog : ((2 : ℕ) : ℚ) ^ Int.log 2 |y| ≤ |y| := Int.zpow_log_le_self (by norm_num) hypos
  have hyabs : |y| < (2 : ℚ) ^ (53 + e) := by
    rw [hy, abs_mul, abs_of_pos (h2pos e), zpow_add₀ (by norm_num : (2 : ℚ) ≠ 0)]
    apply mul_lt_mul_of_pos_right _ (h2pos e)
    have : ((|m| : ℤ) : ℚ) < ((2 ^ 53 : ℤ) : ℚ) := by exact_mod_cast hm
    have h53 : ((2 ^ 53 : ℤ) : ℚ) = (2 : ℚ) ^ (53 : ℤ) := by norm_num
    rw [h53, Int.cast_abs] at this
    exact this
  have hL : Int.log 2 |y| < 53 + e := by
    have hlt : (2 : ℚ) ^ Int.log 2 |y| < (2 : ℚ) ^ (53 + e) := by
      have : (2 : ℚ) ^ Int.log 2 |y| ≤ |y| := by simpa using hlog
      exact lt_of_le_of_lt this hyabs
    exact (zpow_lt_zpow_iff_right₀ (by norm_num : (1 : ℚ) < 2)).mp hlt
  have hu : f64ulpExp y ≤ e := by
    unfold f64ulpExp
    exact max_le (by omega) he
  obtain ⟨n, hn⟩ := Int.eq_ofNat_of_zero_le (sub_nonneg.mpr hu)
  apply f64round_of_multiple y (m * 2 ^ n)
  have he' : e = (n : ℤ) + f64ulpExp y := by omega
  conv_lhs => rw [hy, he', zpow_add₀ (by norm_num : (2 : ℚ) ≠ 0)]
  push_cast
  rw [zpow_natCast]
  ring

theorem f64round_of_isF64 (y : ℚ) (h : IsF64 (-1074) y) : f64round y = y := by
  obtain ⟨m, e, he, hm, rfl⟩ := h
  rcases lt_or_eq_of_le hm with hlt | heq
  · exact f64round_strict m e he hlt
  · have hm' : m = 2 * (m / 2) := by
      rcases (abs_eq (by norm_num : (0 : ℤ) ≤ 2 ^ 53)).mp heq with h | h <;> rw [h] <;> norm_num
    have hq : (m : ℚ) * (2 : ℚ) ^ e = ((m / 2 : ℤ) : ℚ) * (2 : ℚ) ^ (e + 1) := by
      rw [zpow_add₀ (by norm_num : (2 : ℚ) ≠ 0)]
      conv_lhs => rw [hm']
      push_cast
      ring
    rw [hq]
    apply f64round_strict _ _ (by omega)
    rcases (abs_eq (by norm_num : (0 : ℤ) ≤ 2 ^ 53)).mp heq with h | h <;> rw [h] <;> norm_num

theorem isF64_zero (lo : ℤ) (h : lo ≤ 0) : IsF64 lo 0 :=
  ⟨0, 0, h, by norm_num, by simp⟩

theorem f64round_zero : f64round 0 = 0 := by
  simp [f64round, roundHalfEven]

theorem isF64_f64round (q : ℚ) (hq : 1 ≤ |q|) : IsF64 (-52) (f64round q) := by
  have hpos : 0 < |q| := lt_of_lt_of_le one_pos hq
  have h2pos : ∀ z : ℤ, (0 : ℚ) < (2 : ℚ) ^ z := fun z => zpow_pos (by norm_num) z
  have hL0 : 0 ≤ Int.log 2 |q| := by
    rw [← Int.zpow_le_iff_le_log (by norm_num : 1 < 2) hpos]
    simpa using hq
  have hu1 : Int.log 2 |q| - 52 ≤ f64ulpExp q := le_max_left _ _
  have hlt : |q| < (2 : ℚ) ^ (Int.log 2 |q| + 1) := by
    simpa using Int.lt_zpow_succ_log_self (by norm_num : 1 < 2) |q|
  have hle : (2 : ℚ) ^ (Int.log 2 |q| + 1) ≤ (2 : ℚ) ^ (53 + f64ulpExp q) :=
    (zpow_le_zpow_iff_right₀ (by norm_num : (1 : ℚ) < 2)).mpr (by omega)
  have hb : |q / (2 : ℚ) ^ f64ulpExp q| ≤ ((2 ^ 53 : ℤ) : ℚ) := by
    rw [abs_div, abs_of_pos (h2pos _), div_le_iff₀ (h2pos _)]
    have h53 : ((2 ^ 53 : ℤ) : ℚ) = (2 : ℚ) ^ (53 : ℤ) := by norm_num
    rw [h53, ← zpow_add₀ (by norm_num : (2 : ℚ) ≠ 0)]
    exact le_of_lt (lt_of_lt_of_le hlt hle)
  exact ⟨roundHalfEven (q / (2 : ℚ) ^ f64ulpExp q), f64ulpExp q, by omega,
    abs_roundHalfEven_le _ _ hb, rfl⟩

theorem isF64_f64ofInt (n : ℤ) : IsF64 (-52) (f64ofInt n) := by
  by_cases hn : n = 0
  · subst hn
    simp only [f64ofInt, Int.cast_zero, f64round_zero]
    exact isF64_zero _ (by norm_num)
  · apply isF64_f64round
    have : (1 : ℤ) ≤ |n| := Int.one_le_abs hn
    have h : ((1 : ℤ) : ℚ) ≤ ((|n| : ℤ) : ℚ) := by exact_mod_cast this
    simpa using h

theorem f64ofInt_exact (n : ℤ) (h : |n| ≤ 2 ^ 53) : f64ofInt n = (n : ℚ) :=
  f64round_of_isF64 _ ⟨n, 0, by norm_num, h, by simp⟩

theorem isF64_div_two_pow (lo : ℤ) (y : ℚ) (j : ℕ) (h : IsF64 lo y) :
    IsF64 (lo - j) (y / (2 : ℚ) ^ j) := by
  obtain ⟨m, e, he, hm, rfl⟩ := h
  refine ⟨m, e - j, by omega, hm, ?_⟩
  rw [zpow_sub₀ (by norm_num : (2 : ℚ) ≠ 0), zpow_natCast]
  ring

theorem isF64_mono (lo lo' : ℤ) (y : ℚ) (hlo : lo' ≤ lo) (h : IsF64 lo y) : IsF64 lo' y := by
  obtain ⟨m, e, he, hm, rfl⟩ := h
  exact ⟨m, e, by omega, hm, rfl⟩

theorem f64div_two_pow (lo : ℤ) (y : ℚ) (j : ℕ) (h : IsF64 lo y) (hlo : -1074 ≤ lo - j) :
    f64div y ((2 : ℚ) ^ j) = y / (2 : ℚ) ^ j :=
  f64round_of_isF64 _ (isF64_mono _ _ _ hlo (isF64_div_two_pow lo y j h))

/-- The unit conversion of the three buffer functions: both float64 divisions
by 1024 are exact, so the result is `float64(cap)` over 1048576. -/
theorem megabytes_eq (cap : ℤ) :
    f64div (f64div (f64ofInt cap) 1024) 1024 = f64ofInt cap / 1048576 := by
  have h0 := isF64_f64ofInt cap
  have e1 : f64div (f64ofInt cap) 1024 = f64ofInt cap / (2 : ℚ) ^ 10 := by
    have := f64div_two_pow (-52) (f64ofInt cap) 10 h0 (by norm_num)
    norm_num at this ⊢
    exact this
  have h1 : IsF64 (-62) (f64ofInt cap / (2 : ℚ) ^ 10) := by
    have := isF64_div_two_pow (-52) (f64ofInt cap) 10 h0
    norm_num at this ⊢
    exact this
  rw [e1]
  have e2 := f64div_two_pow (-62) _ 10 h1 (by norm_num)
  norm_num at e2 ⊢
  rw [e2]
  ring

theorem megabytes_single_div (cap : ℤ) :
    f64div (f64ofInt cap) 1048576 = f64ofInt cap / 1048576 := by
  have := f64div_two_pow (-52) (f64ofInt cap) 20 (isF64_f64ofInt cap) (by norm_num)
  norm_num at this ⊢
  exact this

/-! ## Instruments: effect of the recording calls -/

theorem labelValues_type (t : GoString) (ht : utf8ValidString t = true) :
    labelValues ["type"] [("type", t)] = .ok [t] := by
  simp [labelValues, List.lookup, List.mapM, List.mapM.loop, ht]

theorem labelValues_type_invalid (t : GoString) (ht : utf8ValidString t = false) :
    labelValues ["type"] [("type", t)] = .error Panic.invalidLabelValue := by
  simp [labelValues, ht]

theorem Series.set_set {α : Type} (f : Series α) (k : List GoString) (a b : α) :
    (f.set k a).set k b = f.set k b := by
  funext k'
  simp only [Series.set]
  split <;> rfl

theorem Series.set_same {α : Type} (f : Series α) (k : List GoString) (a : α) :
    f.set k a k = some a := by
  simp [Series.set]

theorem Series.set_other {α : Type} (f : Series α) (k k' : List GoString) (a : α) (h : k' ≠ k) :
    f.set k a k' = f k' := by
  simp [Series.set, h]

theorem incrementPrometheusErrorsTotal_eq (s : State) (v : CounterVec) (t : GoString)
    (hv : s.prometheusErrorsTotal = some v) (hl : v.desc.labelNames = ["type"])
    (ht : utf8ValidString t = true) :
    incrementPrometheusErrorsTotal t s =
      .ok { s with
        prometheusErrorsTotal := some { v with
          series := v.series.set [t] ((v.series [t]).getD 0 + 1) } } := by
  unfold incrementPrometheusErrorsTotal CounterVec.With
  rw [hv]
  simp only [hl, labelValues_type t ht]
  cases hs : v.series [t] <;>
    simp [CounterVec.Inc, hs, Series.set_same, Series.set_set]

theorem observePrometheusBufferSize_eq (s : State) (v : HistogramVec) (t : GoString) (cap : Int)
    (hv : s.prometheusBufferSize = some v) (hl : v.desc.labelNames = ["type"])
    (ht : utf8ValidString t = true) :
    observePrometheusBufferSize t cap s =
      .ok { s with
        prometheusBufferSize := some { v with
          series := v.series.set [t]
            ((v.series [t]).getD [] ++ [f64div (f64div (f64ofInt cap) 1024) 1024]) } } := by
  unfold observePrometheusBufferSize HistogramVec.With
  rw [hv]
  simp only [hl, labelValues_type t ht]
  cases hs : v.series [t] <;>
    simp [HistogramVec.Observe, hs, Series.set_same, Series.set_set]

theorem setPrometheusBufferDefaultSize_eq (s : State) (v : GaugeVec) (t : GoString) (cap : Int)
    (hv : s.prometheusBufferDefaultSize = some v) (hl : v.desc.labelNames = ["type"])
    (ht : utf8ValidString t = true) :
    setPrometheusBufferDefaultSize t cap s =
      .ok { s with
        prometheusBufferDefaultSize := some { v with
          series := v.series.set [t] (f64div (f64div (f64ofInt cap) 1024) 1024) } } := by
  unfold setPrometheusBufferDefaultSize GaugeVec.With
  rw [hv]
  simp only [hl, labelValues_type t ht]
  cases hs : v.series [t] <;>
    simp [GaugeVec.Set, hs, Series.set_same, Series.set_set]

theorem setPrometheusBufferMaxSize_eq (s : State) (v : GaugeVec) (t : GoString) (cap : Int)
    (hv : s.prometheusBufferMaxSize = some v) (hl : v.desc.labelNames = ["type"])
    (ht : utf8ValidString t = true) :
    setPrometheusBufferMaxSize t cap s =
      .ok { s with
        prometheusBufferMaxSize := some { v with
          series := v.series.set [t] (f64div (f64div (f64ofInt cap) 1024) 1024) } } := by
  unfold setPrometheusBufferMaxSize GaugeVec.With
  rw [hv]
  simp only [hl, labelValues_type t ht]
  cases hs : v.series [t] <;>
    simp [GaugeVec.Set, hs, Series.set_same, Series.set_set]

theorem incrementPrometheusErrorsTotal_nil (s : State) (t : GoString)
    (hv : s.prometheusErrorsTotal = none) :
    incrementPrometheusErrorsTotal t s = .error .nilDereference := by
  simp [incrementPrometheusErrorsTotal, CounterVec.With, hv]

theorem observePrometheusBufferSize_nil (s : State) (t : GoString) (cap : Int)
    (hv : s.prometheusBufferSize = none) :
    observePrometheusBufferSize t cap s = .error .nilDereference := by
  simp [observePrometheusBufferSize, HistogramVec.With, hv]

theorem setPrometheusBufferDefaultSize_nil (s : State) (t : GoString) (cap : Int)
    (hv : s.prometheusBufferDefaultSize = none) :
    setPrometheusBufferDefaultSize t cap s = .error .nilDereference := by
  simp [setPrometheusBufferDefaultSize, GaugeVec.With, hv]

theorem setPrometheusBufferMaxSize_nil (s : State) (t : GoString) (cap : Int)
    (hv : s.prometheusBufferMaxSize = none) :
    setPrometheusBufferMaxSize t cap s = .error .nilDereference := by
  simp [setPrometheusBufferMaxSize, GaugeVec.With, hv]

theorem StopFn.call_nil (t0 now : Int) (s : State) :
    (startPrometheusDuration none t0).call now s = .error .nilDereference := by
  simp [StopFn.call, startPrometheusDuration, Histogram.Observe]

theorem StopFn.call_eq (a : Nat) (h : Histogram) (t0 now : Int) (s : State)
    (ha : s.heap[a]? = some h) :
    (startPrometheusDuration (some a) t0).call now s =
      .ok { s with
        heap := s.heap.set a { h with
          observations := h.observations ++ [Duration.Seconds (timeSince now t0)] } } := by
  simp [StopFn.call, startPrometheusDuration, Histogram.Observe, ha]

theorem incrementPrometheusErrorsTotal_invalid (s : State) (v : CounterVec) (t : GoString)
    (hv : s.prometheusErrorsTotal = some v) (hl : v.desc.labelNames = ["type"])
    (ht : utf8ValidString t = false) :
    incrementPrometheusErrorsTotal t s = .error Panic.invalidLabelValue := by
  unfold incrementPrometheusErrorsTotal CounterVec.With
  rw [hv]
  simp only [hl, labelValues_type_invalid t ht]

theorem observePrometheusBufferSize_invalid (s : State) (v : HistogramVec) (t : GoString)
    (cap : Int) (hv : s.prometheusBufferSize = some v) (hl : v.desc.labelNames = ["type"])
    (ht : utf8ValidString t = false) :
    observePrometheusBufferSize t cap s = .error Panic.invalidLabelValue := by
  unfold observePrometheusBufferSize HistogramVec.With
  rw [hv]
  simp only [hl, labelValues_type_invalid t ht]

theorem setPrometheusBufferDefaultSize_invalid (s : State) (v : GaugeVec) (t : GoString)
    (cap : Int) (hv : s.prometheusBufferDefaultSize = some v)
    (hl : v.desc.labelNames = ["type"]) (ht : utf8ValidString t = false) :
    setPrometheusBufferDefaultSize t cap s = .error Panic.invalidLabelValue := by
  unfold setPrometheusBufferDefaultSize GaugeVec.With
  rw [hv]
  simp only [hl, labelValues_type_invalid t ht]

theorem setPrometheusBufferMaxSize_invalid (s : State) (v : GaugeVec) (t : GoString)
    (cap : Int) (hv : s.prometheusBufferMaxSize = some v)
    (hl : v.desc.labelNames = ["type"]) (ht : utf8ValidString t = false) :
    setPrometheusBufferMaxSize t cap s = .error Panic.invalidLabelValue := by
  unfold setPrometheusBufferMaxSize GaugeVec.With
  rw [hv]
  simp only [hl, labelValues_type_invalid t ht]

/-! ## Lifecycle -/

theorem getElem?_append_length_add {α : Type} (l r : List α) (i : Nat) :
    (l ++ r)[l.length + i]? = r[i]? := by
  rw [List.getElem?_append_right (by omega)]
  congr 1
  omega

theorem getElem?_append_length {α : Type} (l r : List α) :
    (l ++ r)[l.length]? = r[0]? := by
  simpa using getElem?_append_length_add l r 0

/-- Everything but the registry. -/
theorem Register_frame (c : Collector) (s s' : State) (h : Register c s = .ok s') :
    s' = { s with registry := s'.registry } := by
  unfold Register at h
  split at h
  · cases h
  · split at h
    · cases h
    · cases h; rfl

theorem MustRegister_frame (cs : List Collector) (s s' : State)
    (h : MustRegister cs s = .ok s') : s' = { s with registry := s'.registry } := by
  induction cs generalizing s with
  | nil =>
    simp only [MustRegister] at h
    cases h; rfl
  | cons c cs ih =>
    simp only [MustRegister] at h
    split at h
    · cases h
    · rename_i s1 h1
      have e1 := Register_frame c s s1 h1
      have e2 := ih s1 h
      rw [e2, e1]

theorem MustRegister_fields (cs : List Collector) (s s' : State)
    (h : MustRegister cs s = .ok s') :
    s'.prometheusEnabled = s.prometheusEnabled ∧
    s'.prometheusRequestsTotal = s.prometheusRequestsTotal ∧
    s'.prometheusErrorsTotal = s.prometheusErrorsTotal ∧
    s'.prometheusRequestDuration = s.prometheusRequestDuration ∧
    s'.prometheusDownloadDuration = s.prometheusDownloadDuration ∧
    s'.prometheusProcessingDuration = s.prometheusProcessingDuration ∧
    s'.prometheusBufferSize = s.prometheusBufferSize ∧
    s'.prometheusBufferDefaultSize = s.prometheusBufferDefaultSize ∧
    s'.prometheusBufferMaxSize = s.prometheusBufferMaxSize ∧
    s'.heap = s.heap ∧ s'.servers = s.servers := by
  have e := MustRegister_frame cs s s' h
  refine ⟨?_, ?_, ?_, ?_, ?_, ?_, ?_, ?_, ?_, ?_, ?_⟩ <;> rw [e]

theorem initPrometheus_empty (conf : Config) (s : State)
    (hb : conf.PrometheusBind.utf8ByteSize = 0) : initPrometheus conf s = .ok s := by
  simp [initPrometheus, hb]

theorem initPrometheus_ok (conf : Config) (s s' : State)
    (hb : conf.PrometheusBind.utf8ByteSize ≠ 0) (h : initPrometheus conf s = .ok s') :
    s'.prometheusEnabled = true ∧ Allocated s' := by
  unfold initPrometheus at h
  rw [if_neg hb] at h
  simp only [NewHistogram, NewCounter, NewCounterVec, NewHistogramVec, NewGaugeVec] at h
  split at h
  · cases h
  · rename_i s1 h1
    obtain ⟨-, f1, f2, f3, f4, f5, f6, f7, f8, f9, -⟩ := MustRegister_fields _ _ _ h1
    simp only at f1 f2 f3 f4 f5 f6 f7 f8 f9
    cases h
    refine ⟨rfl, ?_⟩
    have g0 : s1.heap[s.heap.length]? = some
        { desc := { Name := "request_duration_seconds",
                    Help := "A histogram of the response latency.", labelNames := [] },
          observations := [] } := by
      rw [f9]
      simp only [List.append_assoc, List.singleton_append, getElem?_append_length]
      rfl
    have g1 : s1.heap[s.heap.length + 1]? = some
        { desc := { Name := "download_duration_seconds",
                    Help := "A histogram of the source image downloading latency.",
                    labelNames := [] },
          observations := [] } := by
      rw [f9]
      simp only [List.append_assoc, List.singleton_append, getElem?_append_length_add]
      rfl
    have g2 : s1.heap[s.heap.length + 2]? = some
        { desc := { Name := "processing_duration_seconds",
                    Help := "A histogram of the image processing latency.", labelNames := [] },
          observations := [] } := by
      rw [f9]
      simp only [List.append_assoc, List.singleton_append, getElem?_append_length_add]
      rfl
    simp only [List.length_append, List.length_singleton] at f4 f5
    exact ⟨⟨_, f1, rfl⟩, ⟨_, f2, rfl, rfl⟩, ⟨_, _, f3, g0, rfl⟩, ⟨_, _, f4, g1, rfl⟩,
      ⟨_, _, f5, g2, rfl⟩, ⟨_, f6, rfl, rfl⟩, ⟨_, f7, rfl, rfl⟩, ⟨_, f8, rfl, rfl⟩⟩

theorem heap_set_lookup (l : List Histogram) (a b : Nat) (h0 h : Histogram)
    (x : List Float64) (ha : l[a]? = some h0) (hb : l[b]? = some h) :
    ∃ h', (l.set a { h0 with observations := x })[b]? = some h' ∧ h'.desc = h.desc := by
  by_cases hab : a = b
  · subst hab
    have hlt : a < l.length := by
      by_contra hn
      rw [List.getElem?_eq_none (by omega)] at ha
      cases ha
    rw [ha] at hb
    cases hb
    exact ⟨_, List.getElem?_set_self hlt, rfl⟩
  · exact ⟨h, by rw [List.getElem?_set_ne hab]; exact hb, rfl⟩

theorem Allocated_heap_set (s : State) (a : Nat) (h0 : Histogram) (x : List Float64)
    (ha : s.heap[a]? = some h0) (hA : Allocated s) :
    Allocated { s with heap := s.heap.set a { h0 with observations := x } } := by
  obtain ⟨a1, a2, ⟨r3, h3, e3, l3, n3⟩, ⟨r4, h4, e4, l4, n4⟩, ⟨r5, h5, e5, l5, n5⟩,
    a6, a7, a8⟩ := hA
  obtain ⟨k3, p3, q3⟩ := heap_set_lookup s.heap a r3 h0 h3 x ha l3
  obtain ⟨k4, p4, q4⟩ := heap_set_lookup s.heap a r4 h0 h4 x ha l4
  obtain ⟨k5, p5, q5⟩ := heap_set_lookup s.heap a r5 h0 h5 x ha l5
  exact ⟨a1, a2, ⟨r3, k3, e3, p3, by rw [q3]; exact n3⟩, ⟨r4, k4, e4, p4, by rw [q4]; exact n4⟩,
    ⟨r5, k5, e5, p5, by rw [q5]; exact n5⟩, a6, a7, a8⟩

theorem Lifecycle_step (c : Call) (s s' : State) (hJ : Lifecycle s) (h : c.run s = .ok s') :
    Lifecycle s' := by
  obtain ⟨hdis, hen⟩ := hJ
  cases c with
  | initPrometheus conf =>
    simp only [Call.run] at h
    by_cases hb : conf.PrometheusBind.utf8ByteSize = 0
    · rw [initPrometheus_empty conf s hb] at h
      cases h
      exact ⟨hdis, hen⟩
    · obtain ⟨e, hA⟩ := initPrometheus_ok conf s s' hb h
      exact ⟨fun hf => (by rw [e] at hf; cases hf), fun _ => hA⟩
  | incrementRequests =>
    simp only [Call.run, incrementRequests] at h
    cases he : s.prometheusEnabled with
    | false =>
      rw [he] at h
      simp only [Bool.false_eq_true, if_false] at h
      cases h
      exact ⟨hdis, hen⟩
    | true =>
      rw [he] at h
      simp only [if_true] at h
      obtain ⟨⟨c, ec, nc⟩, a2, a3, a4, a5, a6, a7, a8⟩ := hen he
      rw [ec] at h
      cases h
      exact ⟨fun hf => (by simp at hf),
        fun _ => ⟨⟨_, rfl, nc⟩, a2, a3, a4, a5, a6, a7, a8⟩⟩
  | incrementPrometheusErrorsTotal t =>
    simp only [Call.run] at h
    cases he : s.prometheusEnabled with
    | false =>
      rw [hdis he, incrementPrometheusErrorsTotal_nil _ _ rfl] at h
      cases h
    | true =>
      have hA := hen he
      obtain ⟨a1, ⟨v, ev, nv, lv⟩, a3, a4, a5, a6, a7, a8⟩ := hA
      cases ht : utf8ValidString t with
      | false =>
        rw [incrementPrometheusErrorsTotal_invalid s v t ev lv ht] at h
        cases h
      | true =>
        rw [incrementPrometheusErrorsTotal_eq s v t ev lv ht] at h
        cases h
        exact ⟨fun hf => (by rw [he] at hf; cases hf),
          fun _ => ⟨a1, ⟨_, rfl, nv, lv⟩, a3, a4, a5, a6, a7, a8⟩⟩
  | observePrometheusBufferSize t cap =>
    simp only [Call.run] at h
    cases he : s.prometheusEnabled with
    | false =>
      rw [hdis he, observePrometheusBufferSize_nil _ _ _ rfl] at h
      cases h
    | true =>
      have hA := hen he
      obtain ⟨a1, a2, a3, a4, a5, ⟨v, ev, nv, lv⟩, a7, a8⟩ := hA
      cases ht : utf8ValidString t with
      | false =>
        rw [observePrometheusBufferSize_invalid s v t cap ev lv ht] at h
        cases h
      | true =>
        rw [observePrometheusBufferSize_eq s v t cap ev lv ht] at h
        cases h
        exact ⟨fun hf => (by rw [he] at hf; cases hf),
          fun _ => ⟨a1, a2, a3, a4, a5, ⟨_, rfl, nv, lv⟩, a7, a8⟩⟩
  | setPrometheusBufferDefaultSize t cap =>
    simp only [Call.run] at h
    cases he : s.prometheusEnabled with
    | false =>
      rw [hdis he, setPrometheusBufferDefaultSize_nil _ _ _ rfl] at h
      cases h
    | true =>
      have hA := hen he
      obtain ⟨a1, a2, a3, a4, a5, a6, ⟨v, ev, nv, lv⟩, a8⟩ := hA
      cases ht : utf8ValidString t with
      | false =>
        rw [setPrometheusBufferDefaultSize_invalid s v t cap ev lv ht] at h
        cases h
      | true =>
        rw [setPrometheusBufferDefaultSize_eq s v t cap ev lv ht] at h
        cases h
        exact ⟨fun hf => (by rw [he] at hf; cases hf),
          fun _ => ⟨a1, a2, a3, a4, a5, a6, ⟨_, rfl, nv, lv⟩, a8⟩⟩
  | setPrometheusBufferMaxSize t cap =>
    simp only [Call.run] at h
    cases he : s.prometheusEnabled with
    | false =>
      rw [hdis he, setPrometheusBufferMaxSize_nil _ _ _ rfl] at h
      cases h
    | true =>
      have hA := hen he
      obtain ⟨a1, a2, a3, a4, a5, a6, a7, ⟨v, ev, nv, lv⟩⟩ := hA
      cases ht : utf8ValidString t with
      | false =>
        rw [setPrometheusBufferMaxSize_invalid s v t cap ev lv ht] at h
        cases h
      | true =>
        rw [setPrometheusBufferMaxSize_eq s v t cap ev lv ht] at h
        cases h
        exact ⟨fun hf => (by rw [he] at hf; cases hf),
          fun _ => ⟨a1, a2, a3, a4, a5, a6, a7, ⟨_, rfl, nv, lv⟩⟩⟩
  | stop f now =>
    simp only [Call.run] at h
    obtain ⟨m, t0⟩ := f
    cases m with
    | none =>
      simp [StopFn.call, Histogram.Observe] at h
    | some a =>
      cases hh : s.heap[a]? with
      | none =>
        simp [StopFn.call, Histogram.Observe, hh] at h
      | some h0 =>
        have e := StopFn.call_eq a h0 t0 now s hh
        simp only [startPrometheusDuration] at e
        rw [e] at h
        cases h
        cases he : s.prometheusEnabled with
        | false =>
          have := hdis he
          rw [this] at hh
          simp [State.initial] at hh
        | true =>
          exact ⟨fun hf => (by simp at hf),
            fun _ => Allocated_heap_set s a h0 _ hh (hen he)⟩

theorem Lifecycle_initial : Lifecycle State.initial :=
  ⟨fun _ => rfl, fun h => by simp [State.initial] at h⟩

theorem Lifecycle_runCalls (cs : List Call) (s s' : State) (hJ : Lifecycle s)
    (h : runCalls cs s = .ok s') : Lifecycle s' := by
  induction cs generalizing s with
  | nil =>
    simp only [runCalls] at h
    cases h
    exact hJ
  | cons c cs ih =>
    simp only [runCalls] at h
    split at h
    · cases h
    · rename_i s1 h1
      exact ih s1 (Lifecycle_step c s s1 hJ h1) h

theorem Lifecycle_of_reachable (s : State) (h : Reachable s) : Lifecycle s := by
  obtain ⟨cs, hcs⟩ := h
  exact Lifecycle_runCalls cs _ _ Lifecycle_initial hcs

theorem reachable_initial : Reachable State.initial := ⟨[], rfl⟩

theorem reachable_step (c : Call) (s s' : State) (hs : Reachable s) (h : c.run s = .ok s') :
    Reachable s' := by
  obtain ⟨cs, hcs⟩ := hs
  refine ⟨cs ++ [c], ?_⟩
  have key : ∀ (l : List Call) (a b : State), runCalls l a = .ok b →
      runCalls (l ++ [c]) a = c.run b := by
    intro l
    induction l with
    | nil =>
      intro a b hab
      simp only [runCalls] at hab
      cases hab
      simp only [List.nil_append, runCalls]
      cases c.run a <;> rfl
    | cons d l ih =>
      intro a b hab
      simp only [runCalls, List.cons_append] at hab ⊢
      cases hd : d.run a with
      | error e => rw [hd] at hab; cases hab
      | ok a1 =>
        rw [hd] at hab
        exact ih a1 b hab
  rw [key cs _ _ hcs, h]

theorem initPrometheus_initial (conf : Config) (hb : conf.PrometheusBind.utf8ByteSize ≠ 0) :
    initPrometheus conf State.initial = .ok (State.fresh conf.PrometheusBind) := by
  unfold initPrometheus
  rw [if_neg hb]
  rfl

theorem reachable_fresh (bind : String) (hb : bind.utf8ByteSize ≠ 0) :
    Reachable (State.fresh bind) :=
  ⟨[Call.initPrometheus { PrometheusBind := bind }],
    by simp only [runCalls, Call.run]; rw [initPrometheus_initial _ hb]⟩

/-! ## Sequences of recording calls -/

theorem runCalls_increments (ts : List GoString) :
    (∀ t ∈ ts, utf8ValidString t = true) →
    ∀ (s : State) (v : CounterVec), s.prometheusErrorsTotal = some v →
      v.desc.labelNames = ["type"] →
      ∃ v' : CounterVec,
        runCalls (ts.map Call.incrementPrometheusErrorsTotal) s
          = .ok { s with prometheusErrorsTotal := some v' } ∧
        v'.desc = v.desc ∧
        (∀ t, v'.series [t] =
          if ts.count t = 0 then v.series [t]
          else some ((v.series [t]).getD 0 + ts.count t)) := by
  induction ts with
  | nil =>
    intro _ s v hv _
    refine ⟨v, ?_, rfl, fun t => by simp⟩
    simp only [List.map_nil, runCalls]
    rw [← hv]
  | cons u ts ih =>
    intro hval s v hv hl
    have hu : utf8ValidString u = true := hval u (List.mem_cons_self u ts)
    obtain ⟨v', h1, h2, h3⟩ := ih (fun t ht => hval t (List.mem_cons_of_mem u ht))
      { s with
        prometheusErrorsTotal := some { v with
          series := v.series.set [u] ((v.series [u]).getD 0 + 1) } }
      { v with series := v.series.set [u] ((v.series [u]).getD 0 + 1) } rfl hl
    refine ⟨v', ?_, h2, ?_⟩
    · simp only [List.map_cons, runCalls, Call.run]
      rw [incrementPrometheusErrorsTotal_eq s v u hv hl hu]
      exact h1
    · intro t
      rw [h3 t, List.count_cons]
      by_cases hut : u = t
      · subst hut
        simp only [Series.set_same, beq_self_eq_true, if_true, Option.getD_some]
        by_cases hc : List.count u ts = 0
        · simp [hc]
        · simp only [hc, if_false, Nat.add_eq_zero, and_false]
          congr 1
          omega
      · have hk : ([t] : List GoString) ≠ [u] := by
          intro h
          exact hut (List.singleton_inj.mp h).symm
        have hb : (u == t) = false := by simpa using hut
        simp only [Series.set_other _ _ _ _ hk, hb, Bool.false_eq_true, if_false, Nat.add_zero]

theorem runCalls_gauges (cs : List GaugeCall) :
    (∀ c ∈ cs, utf8ValidString c.label = true) →
    ∀ (s : State) (vd vm : GaugeVec), s.prometheusBufferDefaultSize = some vd →
      s.prometheusBufferMaxSize = some vm →
      vd.desc.labelNames = ["type"] → vm.desc.labelNames = ["type"] →
      ∃ vd' vm' : GaugeVec,
        runCalls (cs.map GaugeCall.toCall) s
          = .ok { s with
              prometheusBufferDefaultSize := some vd'
              prometheusBufferMaxSize := some vm' } ∧
        (∀ t, vd'.series [t] =
          match lastDefault t cs with
          | some cap => some (f64div (f64div (f64ofInt cap) 1024) 1024)
          | none => vd.series [t]) ∧
        (∀ t, vm'.series [t] =
          match lastMax t cs with
          | some cap => some (f64div (f64div (f64ofInt cap) 1024) 1024)
          | none => vm.series [t]) := by
  induction cs with
  | nil =>
    intro _ s vd vm hd hm _ _
    refine ⟨vd, vm, ?_, fun t => rfl, fun t => rfl⟩
    simp only [List.map_nil, runCalls]
    rw [← hd, ← hm]
  | cons c cs ih =>
    intro hval s vd vm hd hm ld lm
    have hc := hval c (List.mem_cons_self c cs)
    have ih := ih (fun c' hc' => hval c' (List.mem_cons_of_mem c hc'))
    cases c with
    | setDefault u cap =>
      obtain ⟨vd', vm', h1, h2, h3⟩ := ih
        { s with
          prometheusBufferDefaultSize := some { vd with
            series := vd.series.set [u] (f64div (f64div (f64ofInt cap) 1024) 1024) } }
        { vd with series := vd.series.set [u] (f64div (f64div (f64ofInt cap) 1024) 1024) }
        vm rfl hm ld lm
      refine ⟨vd', vm', ?_, ?_, ?_⟩
      · simp only [List.map_cons, runCalls, Call.run, GaugeCall.toCall]
        rw [setPrometheusBufferDefaultSize_eq s vd u cap hd ld hc]
        exact h1
      · intro t
        rw [h2 t]
        simp only [lastDefault]
        cases lastDefault t cs with
        | some c0 => rfl
        | none =>
          by_cases hut : u = t
          · subst hut
            simp [Series.set_same]
          · have hk : ([t] : List GoString) ≠ [u] := by
              intro h
              exact hut (List.singleton_inj.mp h).symm
            simp [Series.set_other _ _ _ _ hk, hut]
      · intro t
        rw [h3 t]
        simp only [lastMax]
        cases lastMax t cs <;> rfl
    | setMax u cap =>
      obtain ⟨vd', vm', h1, h2, h3⟩ := ih
        { s with
          prometheusBufferMaxSize := some { vm with
            series := vm.series.set [u] (f64div (f64div (f64ofInt cap) 1024) 1024) } }
        vd
        { vm with series := vm.series.set [u] (f64div (f64div (f64ofInt cap) 1024) 1024) }
        hd rfl ld lm
      refine ⟨vd', vm', ?_, ?_, ?_⟩
      · simp only [List.map_cons, runCalls, Call.run, GaugeCall.toCall]
        rw [setPrometheusBufferMaxSize_eq s vm u cap hm lm hc]
        exact h1
      · intro t
        rw [h2 t]
        simp only [lastDefault]
        cases lastDefault t cs <;> rfl
      · intro t
        rw [h3 t]
        simp only [lastMax]
        cases lastMax t cs with
        | some c0 => rfl
        | none =>
          by_cases hut : u = t
          · subst hut
            simp [Series.set_same]
          · have hk : ([t] : List GoString) ≠ [u] := by
              intro h
              exact hut (List.singleton_inj.mp h).symm
            simp [Series.set_other _ _ _ _ hk, hut]

theorem set_of_getElem? {α : Type} (l : List α) (a : Nat) (x : α) (h : l[a]? = some x) :
    l.set a x = l := by
  apply List.ext_getElem?
  intro i
  by_cases hi : a = i
  · subst hi
    rw [List.getElem?_set_self', h]
    rfl
  · rw [List.getElem?_set_ne hi]

theorem runCalls_stops (a : Nat) (t0 : Int) (ts : List Int) :
    ∀ (s : State) (h : Histogram), s.heap[a]? = some h →
      runCalls (ts.map (fun ti => Call.stop (startPrometheusDuration (some a) t0) ti)) s
        = .ok { s with
            heap := s.heap.set a { h with
              observations :=
                h.observations ++ ts.map (fun ti => Duration.Seconds (timeSince ti t0)) } } := by
  induction ts with
  | nil =>
    intro s h ha
    simp only [List.map_nil, runCalls, List.append_nil]
    rw [set_of_getElem? s.heap a _ ha]
  | cons t1 ts ih =>
    intro s h ha
    simp only [List.map_cons, runCalls, Call.run]
    rw [StopFn.call_eq a h t0 t1 s ha]
    have hlt : a < s.heap.length := by
      by_contra hn
      rw [List.getElem?_eq_none (by omega)] at ha
      cases ha
    have e := ih
      { s with
        heap := s.heap.set a { h with
          observations := h.observations ++ [Duration.Seconds (timeSince t1 t0)] } }
      { h with observations := h.observations ++ [Duration.Seconds (timeSince t1 t0)] }
      (List.getElem?_set_self hlt)
    simp only at e ⊢
    rw [e]
    simp only [List.set_set, List.append_assoc, List.singleton_append]

theorem timeSince_eq (now t : Int) (h0 : 0 ≤ t) (h1 : t ≤ now) (h2 : now < 2 ^ 63) :
    timeSince now t = now - t := by
  unfold timeSince maxDuration minDuration
  rw [if_neg (by omega), if_neg (by omega)]

/-! ## float64: rounding error, `Duration.Seconds` -/

theorem abs_roundHalfEven_sub_le (x : ℚ) : |(roundHalfEven x : ℚ) - x| ≤ 1 / 2 := by
  have h0 : (0 : ℚ) ≤ x - ⌊x⌋ := sub_nonneg.mpr (Int.floor_le x)
  have h1 : x - ⌊x⌋ < 1 := by
    have := Int.lt_floor_add_one x
    linarith
  unfold roundHalfEven
  simp only
  split_ifs with a b c
  · rw [abs_le]; constructor <;> linarith
  · rw [abs_le]; push_cast; constructor <;> linarith
  · rw [abs_le]; constructor <;> linarith
  · rw [abs_le]; push_cast; constructor <;> linarith

theorem f64round_rel_err (q : ℚ) (hq : (2 : ℚ) ^ (-1022 : ℤ) ≤ |q|) :
    |f64round q - q| ≤ |q| / 2 ^ 53 := by
  have h2pos : ∀ z : ℤ, (0 : ℚ) < (2 : ℚ) ^ z := fun z => zpow_pos (by norm_num) z
  have hpos : 0 < |q| := lt_of_lt_of_le (h2pos _) hq
  have hL : -1022 ≤ Int.log 2 |q| := by
    rw [← Int.zpow_le_iff_le_log (by norm_num : 1 < 2) hpos]
    simpa using hq
  have hu : f64ulpExp q = Int.log 2 |q| - 52 := by
    unfold f64ulpExp
    exact max_eq_left (by omega)
  have hlog : (2 : ℚ) ^ Int.log 2 |q| ≤ |q| := by
    simpa using Int.zpow_log_le_self (by norm_num : 1 < 2) hpos
  have hsplit : f64round q - q =
      ((roundHalfEven (q / (2 : ℚ) ^ f64ulpExp q) : ℚ) - q / (2 : ℚ) ^ f64ulpExp q)
        * (2 : ℚ) ^ f64ulpExp q := by
    unfold f64round
    rw [sub_mul, div_mul_cancel₀ _ (ne_of_gt (h2pos _))]
  rw [hsplit, abs_mul, abs_of_pos (h2pos _)]
  have hk := abs_roundHalfEven_sub_le (q / (2 : ℚ) ^ f64ulpExp q)
  have hpow : (2 : ℚ) ^ f64ulpExp q = (2 : ℚ) ^ Int.log 2 |q| / 2 ^ 52 := by
    rw [hu, zpow_sub₀ (by norm_num : (2 : ℚ) ≠ 0)]
    norm_num
  calc |(roundHalfEven (q / (2 : ℚ) ^ f64ulpExp q) : ℚ) - q / (2 : ℚ) ^ f64ulpExp q|
        * (2 : ℚ) ^ f64ulpExp q
      ≤ 1 / 2 * (2 : ℚ) ^ f64ulpExp q :=
        mul_le_mul_of_nonneg_right hk (le_of_lt (h2pos _))
    _ = (2 : ℚ) ^ Int.log 2 |q| / 2 ^ 53 := by rw [hpow]; ring
    _ ≤ |q| / 2 ^ 53 := by
        apply div_le_div_of_nonneg_right hlog
        positivity

theorem Duration.Seconds_accurate (d : Int) (h0 : 0 ≤ d) (h1 : d < 2 ^ 63) :
    |Duration.Seconds d - (d : ℚ) / 1000000000| ≤ (d : ℚ) / 1000000000 / 2 ^ 51 := by
  have hsec : Int.tdiv d 1000000000 = d / 1000000000 := Int.tdiv_eq_ediv h0 (by norm_num)
  have hnsec : Int.tmod d 1000000000 = d % 1000000000 := Int.tmod_eq_emod h0 (by norm_num)
  have hs0 : 0 ≤ d / 1000000000 := Int.ediv_nonneg h0 (by norm_num)
  have hs1 : d / 1000000000 < 2 ^ 53 := by omega
  have hn0 : 0 ≤ d % 1000000000 := Int.emod_nonneg d (by norm_num)
  have hn1 : d % 1000000000 < 1000000000 := Int.emod_lt_of_pos d (by norm_num)
  have hd : (d : ℚ) = ((d / 1000000000 : ℤ) : ℚ) * 1000000000 + ((d % 1000000000 : ℤ) : ℚ) := by
    have := Int.ediv_add_emod d 1000000000
    have h : ((1000000000 * (d / 1000000000) + d % 1000000000 : ℤ) : ℚ) = (d : ℚ) := by
      rw [this]
    push_cast at h
    linarith
  unfold Duration.Seconds
  simp only [hsec, hnsec]
  rw [f64ofInt_exact _ (by rw [abs_of_nonneg hs0]; omega),
    f64ofInt_exact _ (by rw [abs_of_nonneg hn0]; omega)]
  set S : ℚ := ((d / 1000000000 : ℤ) : ℚ) with hS
  set N : ℚ := ((d % 1000000000 : ℤ) : ℚ) with hN
  have hSnn : (0 : ℚ) ≤ S := by rw [hS]; exact_mod_cast hs0
  have hNnn : (0 : ℚ) ≤ N := by rw [hN]; exact_mod_cast hn0
  have hquot : (d : ℚ) / 1000000000 = S + N / 1000000000 := by
    rw [hd]; field_simp
  rw [hquot]
  by_cases hz : d % 1000000000 = 0
  · have hN0 : N = 0 := by rw [hN, hz]; simp
    have hSx : f64round S = S :=
      f64ofInt_exact _ (by rw [abs_of_nonneg hs0]; omega)
    simp only [hN0, f64div, f64add, zero_div, f64round_zero, add_zero, hSx, sub_self, abs_zero]
    positivity
  · have hN1 : (1 : ℚ) ≤ N := by
      have : (1 : ℤ) ≤ d % 1000000000 := by omega
      rw [hN]; exact_mod_cast this
    have hsmall : (2 : ℚ) ^ (-1022 : ℤ) ≤ 1 / 2000000000 := by
      have : (2 : ℚ) ^ (-1022 : ℤ) ≤ (2 : ℚ) ^ (-31 : ℤ) :=
        (zpow_le_zpow_iff_right₀ (by norm_num : (1 : ℚ) < 2)).mpr (by norm_num)
      refine le_trans this ?_
      norm_num
    set x : ℚ := N / 1000000000 with hx
    have hx1 : 1 / 1000000000 ≤ x := by
      rw [hx]; exact div_le_div_of_nonneg_right hN1 (by norm_num)
    have hxpos : 0 < x := lt_of_lt_of_le (by norm_num) hx1
    have e1 : |f64round x - x| ≤ x / 2 ^ 53 := by
      have := f64round_rel_err x (by
        rw [abs_of_pos hxpos]
        exact le_trans hsmall (le_trans (by norm_num) hx1))
      rwa [abs_of_pos hxpos] at this
    have hr := abs_le.mp e1
    have hrlow : x / 2 ≤ f64round x := by
      have : x / 2 ^ 53 ≤ x / 2 := by
        apply div_le_div_of_nonneg_left (le_of_lt hxpos) (by norm_num) (by norm_num)
      linarith [hr.1]
    have hypos : 0 < S + f64round x := by linarith
    have e2 : |f64round (S + f64round x) - (S + f64round x)| ≤ (S + f64round x) / 2 ^ 53 := by
      have hlow : (1 : ℚ) / 2000000000 ≤ S + f64round x := by linarith
      have := f64round_rel_err (S + f64round x) (by
        rw [abs_of_pos hypos]
        exact le_trans hsmall hlow)
      rwa [abs_of_pos hypos] at this
    have h2 := abs_le.mp e2
    simp only [f64div, f64add]
    rw [abs_le]
    have hp53 : (0 : ℚ) < 2 ^ 53 := by positivity
    have hp51 : (0 : ℚ) < 2 ^ 51 := by positivity
    have b1 : x / 2 ^ 53 ≤ (S + x) / 2 ^ 53 := by
      apply div_le_div_of_nonneg_right _ (le_of_lt hp53); linarith
    have b2 : (S + f64round x) / 2 ^ 53 ≤ (S + x + (S + x)) / 2 ^ 53 := by
      apply div_le_div_of_nonneg_right _ (le_of_lt hp53)
      have : x / 2 ^ 53 ≤ x := div_le_self (le_of_lt hxpos) (by norm_num)
      linarith [hr.2]
    have b3 : (S + x) / 2 ^ 53 + (S + x + (S + x)) / 2 ^ 53 ≤ (S + x) / 2 ^ 51 := by
      have hsx : 0 ≤ S + x := by linarith
      have e : (S + x) / 2 ^ 51 = 4 * ((S + x) / 2 ^ 53) := by
        field_simp; ring
      have q0 : 0 ≤ (S + x) / 2 ^ 53 := div_nonneg hsx (le_of_lt hp53)
      rw [e, add_div]
      linarith
    constructor <;> linarith [h2.1, h2.2, hr.1, hr.2]

theorem Duration.Seconds_whole (n : Int) (h0 : 0 ≤ n) (h1 : n ≤ 2 ^ 53) :
    Duration.Seconds (n * 1000000000) = (n : ℚ) := by
  unfold Duration.Seconds
  simp only [Int.mul_tdiv_cancel _ (by norm_num : (1000000000 : ℤ) ≠ 0), Int.mul_tmod_left]
  rw [f64ofInt_exact n (by rw [abs_of_nonneg h0]; exact h1)]
  simp only [f64ofInt, f64div, f64add, Int.cast_zero, f64round_zero, zero_div, add_zero]
  exact f64ofInt_exact n (by rw [abs_of_nonneg h0]; exact h1)

/-! ## Disabled registry -/

/-- C3: for an empty bind address `initPrometheus` returns at once and changes
nothing (in whatever state it is called); run from the initial state it leaves
`prometheusEnabled` false, all eight instrument variables nil, nothing
registered, no histogram object allocated and no exposition server started. -/
theorem initPrometheus_empty_bind_stays_disabled (conf : Config)
    (hb : conf.PrometheusBind.utf8ByteSize = 0) :
    (∀ s : State, initPrometheus conf s = .ok s) ∧
    ∃ s' : State, initPrometheus conf State.initial = .ok s' ∧
      s'.prometheusEnabled = false ∧
      s'.prometheusRequestsTotal.isNone = true ∧
      s'.prometheusErrorsTotal.isNone = true ∧
      s'.prometheusRequestDuration.isNone = true ∧
      s'.prometheusDownloadDuration.isNone = true ∧
      s'.prometheusProcessingDuration.isNone = true ∧
      s'.prometheusBufferSize.isNone = true ∧
      s'.prometheusBufferDefaultSize.isNone = true ∧
      s'.prometheusBufferMaxSize.isNone = true ∧
      s'.heap = [] ∧ s'.registry = [] ∧ s'.servers = [] :=
  ⟨fun s => initPrometheus_empty conf s hb,
    State.initial, initPrometheus_empty conf _ hb,
    rfl, rfl, rfl, rfl, rfl, rfl, rfl, rfl, rfl, rfl, rfl, rfl⟩

/-- C3 at the empty bind address itself. -/
theorem initPrometheus_empty_bind_stays_disabled_witness :
    ("" : String).utf8ByteSize = 0 ∧
    (∀ s : State, initPrometheus { PrometheusBind := "" } s = .ok s) ∧
    ∃ s' : State, initPrometheus { PrometheusBind := "" } State.initial = .ok s' ∧
      s'.prometheusEnabled = false ∧
      s'.prometheusRequestsTotal.isNone = true ∧
      s'.prometheusErrorsTotal.isNone = true ∧
      s'.prometheusRequestDuration.isNone = true ∧
      s'.prometheusDownloadDuration.isNone = true ∧
      s'.prometheusProcessingDuration.isNone = true ∧
      s'.prometheusBufferSize.isNone = true ∧
      s'.prometheusBufferDefaultSize.isNone = true ∧
      s'.prometheusBufferMaxSize.isNone = true ∧
      s'.heap = [] ∧ s'.registry = [] ∧ s'.servers = [] :=
  ⟨by decide, initPrometheus_empty_bind_stays_disabled { PrometheusBind := "" } (by decide)⟩

/-- C1, as stated, fails: after `initPrometheus` with the empty bind address
the process is still in its initial state, and there
`incrementPrometheusErrorsTotal "timeout"` does not complete: it panics on the
nil `prometheusErrorsTotal`. -/
theorem recording_call_disabled_not_noop :
    initPrometheus { PrometheusBind := "" } State.initial = .ok State.initial ∧
    incrementPrometheusErrorsTotal (goString "timeout") State.initial
      = .error Panic.nilDereference ∧
    ¬ ∃ s' : State,
      incrementPrometheusErrorsTotal (goString "timeout") State.initial = .ok s' := by
  refine ⟨rfl, rfl, ?_⟩
  rintro ⟨s', h⟩
  have e : incrementPrometheusErrorsTotal (goString "timeout") State.initial
      = .error Panic.nilDereference := rfl
  rw [e] at h
  cases h

/-- C1 (amended): in every disabled state the process can reach, each of the
four recording calls, for every label (any byte string) and every capacity,
aborts with the nil-dereference panic; none of them returns a metrics state. -/
theorem recording_call_disabled_panics (s : State) (hr : Reachable s)
    (hd : s.prometheusEnabled = false) (t : GoString) (cap : Int) :
    incrementPrometheusErrorsTotal t s = .error Panic.nilDereference ∧
    observePrometheusBufferSize t cap s = .error Panic.nilDereference ∧
    setPrometheusBufferDefaultSize t cap s = .error Panic.nilDereference ∧
    setPrometheusBufferMaxSize t cap s = .error Panic.nilDereference := by
  have e := (Lifecycle_of_reachable s hr).1 hd
  subst e
  exact ⟨incrementPrometheusErrorsTotal_nil _ _ rfl, observePrometheusBufferSize_nil _ _ _ rfl,
    setPrometheusBufferDefaultSize_nil _ _ _ rfl, setPrometheusBufferMaxSize_nil _ _ _ rfl⟩

/-- C1 (amended) in the initial state, label "download", capacity 1 MiB. -/
theorem recording_call_disabled_panics_witness :
    Reachable State.initial ∧ State.initial.prometheusEnabled = false ∧
    incrementPrometheusErrorsTotal (goString "download") State.initial
      = .error Panic.nilDereference ∧
    observePrometheusBufferSize (goString "download") 1048576 State.initial
      = .error Panic.nilDereference ∧
    setPrometheusBufferDefaultSize (goString "download") 1048576 State.initial
      = .error Panic.nilDereference ∧
    setPrometheusBufferMaxSize (goString "download") 1048576 State.initial
      = .error Panic.nilDereference :=
  ⟨reachable_initial, rfl,
    recording_call_disabled_panics State.initial reachable_initial rfl (goString "download")
      1048576⟩

/-- C2, as stated, fails: the stop closure captured from the nil
`prometheusRequestDuration` of the initial state panics when invoked. -/
theorem stop_closure_nil_not_safe :
    State.initial.prometheusRequestDuration = none ∧
    (startPrometheusDuration State.initial.prometheusRequestDuration 0).call 1000 State.initial
      = .error Panic.nilDereference ∧
    ¬ ∃ s' : State,
      (startPrometheusDuration State.initial.prometheusRequestDuration 0).call 1000
        State.initial = .ok s' := by
  refine ⟨rfl, rfl, ?_⟩
  rintro ⟨s', h⟩
  have e : (startPrometheusDuration State.initial.prometheusRequestDuration 0).call 1000
      State.initial = .error Panic.nilDereference := rfl
  rw [e] at h
  cases h

/-- C2 (amended): creating the closure is always safe, but a closure captured
over one of the three duration histograms while the registry is disabled holds
the nil histogram, and invoking it, at any time and in any state, aborts with
the nil-dereference panic and records nothing. -/
theorem stop_closure_nil_panics (s : State) (hr : Reachable s)
    (hd : s.prometheusEnabled = false) (t0 now : Int) (s2 : State) :
    (startPrometheusDuration s.prometheusRequestDuration t0).call now s2
      = .error Panic.nilDereference ∧
    (startPrometheusDuration s.prometheusDownloadDuration t0).call now s2
      = .error Panic.nilDereference ∧
    (startPrometheusDuration s.prometheusProcessingDuration t0).call now s2
      = .error Panic.nilDereference := by
  have e := (Lifecycle_of_reachable s hr).1 hd
  subst e
  exact ⟨StopFn.call_nil t0 now s2, StopFn.call_nil t0 now s2, StopFn.call_nil t0 now s2⟩

/-- C2 (amended) for closures captured in the initial state at time 0 and
invoked one second later, after the registry was enabled. -/
theorem stop_closure_nil_panics_witness :
    Reachable State.initial ∧ State.initial.prometheusEnabled = false ∧
    (startPrometheusDuration State.initial.prometheusRequestDuration 0).call 1000000000
      (State.fresh ":8081") = .error Panic.nilDereference ∧
    (startPrometheusDuration State.initial.prometheusDownloadDuration 0).call 1000000000
      (State.fresh ":8081") = .error Panic.nilDereference ∧
    (startPrometheusDuration State.initial.prometheusProcessingDuration 0).call 1000000000
      (State.fresh ":8081") = .error Panic.nilDereference :=
  ⟨reachable_initial, rfl,
    stop_closure_nil_panics State.initial reachable_initial rfl 0 1000000000
      (State.fresh ":8081")⟩

/-! ## Initialisation -/

/-- C8: for a non-empty bind address, `initPrometheus` run from the initial
state succeeds; afterwards `prometheusEnabled` is true, all eight instruments
are allocated under their names (the three vectors labelled by "type"), the
registry holds exactly these eight descriptors, each once, and exactly one
exposition server was started, on the bind address. Moreover in every state the
process can reach, `prometheusEnabled = true` implies every instrument is
allocated. -/
theorem initPrometheus_enables (conf : Config) (hb : conf.PrometheusBind.utf8ByteSize ≠ 0) :
    (∃ s' : State, initPrometheus conf State.initial = .ok s' ∧
      s'.prometheusEnabled = true ∧
      Allocated s' ∧
      s'.heap.length = 3 ∧
      s'.registry.map (fun d => (d.Name, d.labelNames)) =
        [("requests_total", []), ("errors_total", ["type"]),
         ("request_duration_seconds", []), ("download_duration_seconds", []),
         ("processing_duration_seconds", []), ("buffer_size_megabytes", ["type"]),
         ("buffer_default_size_megabytes", ["type"]),
         ("buffer_max_size_megabytes", ["type"])] ∧
      (s'.registry.map (fun d => d.Name)).Nodup ∧
      s'.servers = [conf.PrometheusBind]) ∧
    ∀ s : State, Reachable s → s.prometheusEnabled = true → Allocated s := by
  refine ⟨⟨State.fresh conf.PrometheusBind, initPrometheus_initial conf hb, rfl, ?_, rfl, rfl,
    ?_, rfl⟩, fun s hr he => (Lifecycle_of_reachable s hr).2 he⟩
  · exact (initPrometheus_ok conf _ _ hb (initPrometheus_initial conf hb)).2
  · simp [State.fresh]

/-- C8 at the bind address ":8081". -/
theorem initPrometheus_enables_witness :
    (":8081" : String).utf8ByteSize ≠ 0 ∧
    ∃ s' : State, initPrometheus { PrometheusBind := ":8081" } State.initial = .ok s' ∧
      s'.prometheusEnabled = true ∧ Allocated s' ∧ s'.servers = [":8081"] := by
  obtain ⟨⟨s', h1, h2, h3, -, -, -, h4⟩, -⟩ :=
    initPrometheus_enables { PrometheusBind := ":8081" } (by decide)
  exact ⟨by decide, s', h1, h2, h3, h4⟩

/-! ## Exposition server -/

/-- C9: whatever `ListenAndServe` returns, the server goroutine calls
`logFatal` if and only if the result is non-nil and is not
`http.ErrServerClosed`; when it does, the message is the text of that error. -/
theorem serverTask_fatal_iff (addr : String) (err : Option ServeError) :
    ((∃ msg, LogEvent.fatal msg ∈ serverTask addr err) ↔
      (err ≠ none ∧ err ≠ some ServeError.ErrServerClosed)) ∧
    (∀ msg, LogEvent.fatal msg ∈ serverTask addr err →
      ∃ e, err = some e ∧ msg = e.Error) := by
  cases err with
  | none => simp [serverTask]
  | some e =>
    by_cases he : e = ServeError.ErrServerClosed
    · simp [serverTask, he]
    · simp [serverTask, he]

/-! ## Recording while enabled -/

theorem megabytes_code_eq (cap : Int) :
    f64div (f64div (f64ofInt cap) 1024) 1024 = megabytes cap := by
  rw [megabytes_eq, megabytes, megabytes_single_div]

theorem megabytes_exact (cap : Int) (h : |cap| ≤ 2 ^ 53) :
    megabytes cap = (cap : ℚ) / 1048576 := by
  rw [megabytes, megabytes_single_div, f64ofInt_exact cap h]

theorem not_ok_of_error (r : Except Panic State) (e : Panic) (h : r = .error e) :
    ¬ ∃ s' : State, r = .ok s' := by
  rintro ⟨s', hs⟩
  rw [h] at hs
  cases hs

/-- C4, as stated, fails: right after `initPrometheus` with the bind address
":8081" the registry is enabled, and there `observePrometheusBufferSize` with
the label "a\xc3" (the bytes 0x61 0xC3, not valid UTF-8) does not add an
observation: `With` panics on the label value and nothing is recorded. -/
theorem observePrometheusBufferSize_invalid_label_panics :
    initPrometheus { PrometheusBind := ":8081" } State.initial = .ok (State.fresh ":8081") ∧
    (State.fresh ":8081").prometheusEnabled = true ∧
    utf8ValidString [0x61, 0xC3] = false ∧
    observePrometheusBufferSize [0x61, 0xC3] (2 * 1024 * 1024) (State.fresh ":8081")
      = .error Panic.invalidLabelValue ∧
    ¬ ∃ s' : State,
      observePrometheusBufferSize [0x61, 0xC3] (2 * 1024 * 1024) (State.fresh ":8081")
        = .ok s' := by
  have e := observePrometheusBufferSize_invalid (State.fresh ":8081") _ [0x61, 0xC3]
    (2 * 1024 * 1024) rfl rfl (by decide)
  exact ⟨initPrometheus_initial _ (by decide), rfl, by decide, e, not_ok_of_error _ _ e⟩

/-- C4 (amended): in every enabled state the process can reach, for every
capacity `cap` and every label `t` that is valid UTF-8,
`observePrometheusBufferSize t cap` succeeds and changes only the buffer-size
histogram vector: the series type=`t` gains exactly one observation (appended
to what it held, or to the empty series if `t` is new) and every other series is
untouched. For a label that is not valid UTF-8 the call panics and records
nothing. The value observed, computed with two float64 divisions by 1024, is
`float64(cap)` divided once by 1048576; it is the exact quotient cap/1048576
whenever `cap` is exactly convertible (up to 2^53 in magnitude), and for
2*1024*1024 it is 2. -/
theorem observePrometheusBufferSize_records_megabytes (s : State) (hr : Reachable s)
    (he : s.prometheusEnabled = true) (t : GoString) (cap : Int) :
    (utf8ValidString t = true →
      ∃ v v' : HistogramVec,
        s.prometheusBufferSize = some v ∧
        observePrometheusBufferSize t cap s = .ok { s with prometheusBufferSize := some v' } ∧
        v'.desc = v.desc ∧
        v'.series [t] = some ((v.series [t]).getD [] ++ [megabytes cap]) ∧
        (∀ k, k ≠ [t] → v'.series k = v.series k)) ∧
    (utf8ValidString t = false →
      observePrometheusBufferSize t cap s = .error Panic.invalidLabelValue) ∧
    f64div (f64div (f64ofInt cap) 1024) 1024 = megabytes cap ∧
    (|cap| ≤ 2 ^ 53 → megabytes cap = (cap : ℚ) / 1048576) ∧
    megabytes (2 * 1024 * 1024) = 2 := by
  obtain ⟨-, -, -, -, -, ⟨v, ev, -, lv⟩, -, -⟩ := (Lifecycle_of_reachable s hr).2 he
  refine ⟨fun ht => ⟨v, _, ev, observePrometheusBufferSize_eq s v t cap ev lv ht, rfl, ?_, ?_⟩,
    fun ht => observePrometheusBufferSize_invalid s v t cap ev lv ht,
    megabytes_code_eq cap, megabytes_exact cap, ?_⟩
  · simp only [Series.set_same, megabytes_code_eq]
  · intro k hk
    exact Series.set_other _ _ _ _ hk
  · rw [megabytes_exact _ (by norm_num)]
    norm_num

/-- C4 (amended) on a freshly initialised registry: observing a 2 MiB buffer
under the label "download" leaves the single observation 2 in the series
type="download". -/
theorem observePrometheusBufferSize_records_megabytes_witness :
    utf8ValidString (goString "download") = true ∧
    ∃ v' : HistogramVec,
      observePrometheusBufferSize (goString "download") (2 * 1024 * 1024)
        (State.fresh ":8081")
        = .ok { State.fresh ":8081" with prometheusBufferSize := some v' } ∧
      v'.series [goString "download"] = some [2] := by
  obtain ⟨hok, -, -, -, h2⟩ :=
    observePrometheusBufferSize_records_megabytes (State.fresh ":8081")
      (reachable_fresh ":8081" (by decide)) rfl (goString "download") (2 * 1024 * 1024)
  obtain ⟨v, v', hv, hrun, -, hser, -⟩ := hok (by decide)
  refine ⟨by decide, v', hrun, ?_⟩
  have hv' : v.series [goString "download"] = none := by
    simp only [State.fresh, Option.some.injEq] at hv
    rw [← hv]
  rw [hser, hv', h2]
  rfl

/-- C5, as stated, fails: on a freshly initialised (enabled) registry the
one-call sequence `setPrometheusBufferDefaultSize` with the label "a\xc3" (not
valid UTF-8) and 5 MiB leaves no gauge at 5: the call panics in `With`, and so
does `setPrometheusBufferMaxSize` with that label. -/
theorem gauge_set_invalid_label_panics :
    initPrometheus { PrometheusBind := ":8081" } State.initial = .ok (State.fresh ":8081") ∧
    (State.fresh ":8081").prometheusEnabled = true ∧
    utf8ValidString [0x61, 0xC3] = false ∧
    runCalls [Call.setPrometheusBufferDefaultSize [0x61, 0xC3] (5 * 1024 * 1024)]
      (State.fresh ":8081") = .error Panic.invalidLabelValue ∧
    runCalls [Call.setPrometheusBufferMaxSize [0x61, 0xC3] (5 * 1024 * 1024)]
      (State.fresh ":8081") = .error Panic.invalidLabelValue ∧
    ¬ ∃ s' : State,
      runCalls [Call.setPrometheusBufferDefaultSize [0x61, 0xC3] (5 * 1024 * 1024)]
        (State.fresh ":8081") = .ok s' := by
  have e1 := setPrometheusBufferDefaultSize_invalid (State.fresh ":8081") _ [0x61, 0xC3]
    (5 * 1024 * 1024) rfl rfl (by decide)
  have e2 := setPrometheusBufferMaxSize_invalid (State.fresh ":8081") _ [0x61, 0xC3]
    (5 * 1024 * 1024) rfl rfl (by decide)
  have r1 : runCalls [Call.setPrometheusBufferDefaultSize [0x61, 0xC3] (5 * 1024 * 1024)]
      (State.fresh ":8081") = .error Panic.invalidLabelValue := by
    simp only [runCalls, Call.run]
    rw [e1]
  have r2 : runCalls [Call.setPrometheusBufferMaxSize [0x61, 0xC3] (5 * 1024 * 1024)]
      (State.fresh ":8081") = .error Panic.invalidLabelValue := by
    simp only [runCalls, Call.run]
    rw [e2]
  exact ⟨initPrometheus_initial _ (by decide), rfl, by decide, r1, r2, not_ok_of_error _ _ r1⟩

/-- C5 (amended): in every enabled state the process can reach, every finite
sequence of `setPrometheusBufferDefaultSize` and `setPrometheusBufferMaxSize`
calls whose labels are all valid UTF-8 succeeds, and afterwards, for every label
`t`, the default-size gauge of `t` holds the megabyte value of the last
`setPrometheusBufferDefaultSize` call made with label `t` (its earlier value if
there was none), and the max-size gauge that of the last
`setPrometheusBufferMaxSize` call with label `t`: a set overwrites, and calls
with other labels or on the other gauge have no effect on it. A set call with a
label that is not valid UTF-8 panics and sets nothing. The megabyte value is
`float64(cap)` over 1048576, the exact quotient for capacities up to 2^53 in
magnitude. -/
theorem gauge_holds_last_set (s : State) (hr : Reachable s)
    (he : s.prometheusEnabled = true) (cs : List GaugeCall)
    (hval : ∀ c ∈ cs, utf8ValidString c.label = true) :
    (∃ s' : State, runCalls (cs.map GaugeCall.toCall) s = .ok s' ∧
      (∀ t, gaugeValue s'.prometheusBufferDefaultSize t =
        match lastDefault t cs with
        | some cap => some (megabytes cap)
        | none => gaugeValue s.prometheusBufferDefaultSize t) ∧
      (∀ t, gaugeValue s'.prometheusBufferMaxSize t =
        match lastMax t cs with
        | some cap => some (megabytes cap)
        | none => gaugeValue s.prometheusBufferMaxSize t)) ∧
    (∀ (t : GoString) (cap : Int), utf8ValidString t = false →
      setPrometheusBufferDefaultSize t cap s = .error Panic.invalidLabelValue ∧
      setPrometheusBufferMaxSize t cap s = .error Panic.invalidLabelValue) ∧
    (∀ cap : Int, |cap| ≤ 2 ^ 53 → megabytes cap = (cap : ℚ) / 1048576) := by
  obtain ⟨-, -, -, -, -, -, ⟨vd, ed, -, ld⟩, ⟨vm, em, -, lm⟩⟩ :=
    (Lifecycle_of_reachable s hr).2 he
  obtain ⟨vd', vm', h1, h2, h3⟩ := runCalls_gauges cs hval s vd vm ed em ld lm
  refine ⟨⟨_, h1, ?_, ?_⟩, fun t cap ht =>
    ⟨setPrometheusBufferDefaultSize_invalid s vd t cap ed ld ht,
      setPrometheusBufferMaxSize_invalid s vm t cap em lm ht⟩, megabytes_exact⟩
  · intro t
    simp only [gaugeValue, ed]
    rw [h2 t]
    cases lastDefault t cs <;> simp only [megabytes_code_eq]
  · intro t
    simp only [gaugeValue, em]
    rw [h3 t]
    cases lastMax t cs <;> simp only [megabytes_code_eq]

/-- C5 (amended) on a freshly initialised registry: setting the default size
of "download" to 5 MiB and then to 8 MiB leaves the gauge at 8, which is
neither 5 nor 13; the max-size gauge of "download" is still unset. -/
theorem gauge_holds_last_set_witness :
    utf8ValidString (goString "download") = true ∧
    ∃ s' : State,
      runCalls
        [Call.setPrometheusBufferDefaultSize (goString "download") (5 * 1024 * 1024),
         Call.setPrometheusBufferDefaultSize (goString "download") (8 * 1024 * 1024)]
        (State.fresh ":8081") = .ok s' ∧
      gaugeValue s'.prometheusBufferDefaultSize (goString "download") = some 8 ∧
      gaugeValue s'.prometheusBufferMaxSize (goString "download") = none := by
  obtain ⟨⟨s', hrun, hd, hm⟩, -, hx⟩ :=
    gauge_holds_last_set (State.fresh ":8081") (reachable_fresh ":8081" (by decide)) rfl
      [GaugeCall.setDefault (goString "download") (5 * 1024 * 1024),
       GaugeCall.setDefault (goString "download") (8 * 1024 * 1024)]
      (by
        intro c hc
        simp only [List.mem_cons, List.mem_singleton, List.not_mem_nil, or_false] at hc
        rcases hc with rfl | rfl <;> decide)
  refine ⟨by decide, s', hrun, ?_, ?_⟩
  · have e : lastDefault (goString "download")
        [GaugeCall.setDefault (goString "download") (5 * 1024 * 1024),
         GaugeCall.setDefault (goString "download") (8 * 1024 * 1024)]
        = some (8 * 1024 * 1024) := by
      simp [lastDefault]
    rw [hd (goString "download"), e]
    simp only
    rw [hx _ (by norm_num)]
    norm_num
  · rw [hm (goString "download")]
    rfl

/-- C6, as stated, fails: on a freshly initialised (enabled) registry
`incrementPrometheusErrorsTotal` with the label "\xff" (the byte 0xFF, not
valid UTF-8) creates no series and counts nothing: `With` panics on the label
value. -/
theorem incrementPrometheusErrorsTotal_invalid_label_panics :
    initPrometheus { PrometheusBind := ":8081" } State.initial = .ok (State.fresh ":8081") ∧
    (State.fresh ":8081").prometheusEnabled = true ∧
    utf8ValidString [0xFF] = false ∧
    incrementPrometheusErrorsTotal [0xFF] (State.fresh ":8081")
      = .error Panic.invalidLabelValue ∧
    ¬ ∃ s' : State, incrementPrometheusErrorsTotal [0xFF] (State.fresh ":8081") = .ok s' := by
  have e := incrementPrometheusErrorsTotal_invalid (State.fresh ":8081") _ [0xFF]
    rfl rfl (by decide)
  exact ⟨initPrometheus_initial _ (by decide), rfl, by decide, e, not_ok_of_error _ _ e⟩

/-- C6 (amended): after `initPrometheus` with a non-empty bind address, every
finite sequence of `incrementPrometheusErrorsTotal` calls whose labels are all
valid UTF-8 (the empty string is) succeeds and changes only the errors_total
vector, and afterwards, for every label `t`, the series type=`t` exists exactly
when `t` was passed at least once and its value is the number of calls whose
argument was `t`. In every enabled state the process can reach, a call with a
label that is not valid UTF-8 panics and counts nothing. -/
theorem errors_total_counts_calls (conf : Config)
    (hb : conf.PrometheusBind.utf8ByteSize ≠ 0) (ts : List GoString)
    (hval : ∀ t ∈ ts, utf8ValidString t = true) :
    (∃ (s0 : State) (v' : CounterVec),
      initPrometheus conf State.initial = .ok s0 ∧
      runCalls (ts.map Call.incrementPrometheusErrorsTotal) s0
        = .ok { s0 with prometheusErrorsTotal := some v' } ∧
      (∀ t, v'.series [t] = if ts.count t = 0 then none else some (ts.count t))) ∧
    (∀ (s : State) (t : GoString), Reachable s → s.prometheusEnabled = true →
      utf8ValidString t = false →
      incrementPrometheusErrorsTotal t s = .error Panic.invalidLabelValue) := by
  obtain ⟨v', h1, -, h3⟩ :=
    runCalls_increments ts hval (State.fresh conf.PrometheusBind) _ rfl rfl
  refine ⟨⟨_, v', initPrometheus_initial conf hb, h1, ?_⟩, ?_⟩
  · intro t
    rw [h3 t]
    simp
  · intro s t hr he ht
    obtain ⟨-, ⟨v, ev, -, lv⟩, -⟩ := (Lifecycle_of_reachable s hr).2 he
    exact incrementPrometheusErrorsTotal_invalid s v t ev lv ht

/-- C6 (amended) for the calls "timeout", "", "timeout": the counts are 2 for
"timeout", 1 for the empty label, and the never-passed "download" has no
series. -/
theorem errors_total_counts_calls_witness :
    (":8081" : String).utf8ByteSize ≠ 0 ∧
    (∀ t ∈ [goString "timeout", goString "", goString "timeout"],
      utf8ValidString t = true) ∧
    ∃ (s0 : State) (v' : CounterVec),
      initPrometheus { PrometheusBind := ":8081" } State.initial = .ok s0 ∧
      runCalls [Call.incrementPrometheusErrorsTotal (goString "timeout"),
                Call.incrementPrometheusErrorsTotal (goString ""),
                Call.incrementPrometheusErrorsTotal (goString "timeout")] s0
        = .ok { s0 with prometheusErrorsTotal := some v' } ∧
      v'.series [goString "timeout"] = some 2 ∧ v'.series [goString ""] = some 1 ∧
      v'.series [goString "download"] = none := by
  have hval : ∀ t ∈ [goString "timeout", goString "", goString "timeout"],
      utf8ValidString t = true := by decide
  obtain ⟨⟨s0, v', h0, h1, h2⟩, -⟩ :=
    errors_total_counts_calls { PrometheusBind := ":8081" } (by decide)
      [goString "timeout", goString "", goString "timeout"] hval
  refine ⟨by decide, hval, s0, v', h0, h1, ?_, ?_, ?_⟩
  · rw [h2 (goString "timeout")]; decide
  · rw [h2 (goString "")]; decide
  · rw [h2 (goString "download")]; decide

/-! ## Duration timers -/

/-- C7: let `m` be an allocated histogram, let `startPrometheusDuration m` be
called when the clock reads `t0`, and let the returned closure be invoked at the
clock readings `ts`, each at least `t0` (readings of the monotonic clock are
non-negative int64 nanoseconds). Then every invocation succeeds, `m`
gains exactly one observation per invocation, in order, the one for reading `ti`
being `Duration.Seconds` of `ti - t0` (always measured from the one captured
start), and nothing else in the state changes. That value is `(ti - t0)/10^9`
seconds up to float64 rounding (relative error at most 2^-51), and exactly the
number of seconds when the elapsed time is a whole number of seconds. -/
theorem stop_closure_records_elapsed (s : State) (a : Nat) (h : Histogram)
    (ha : s.heap[a]? = some h) (t0 : Int) (ts : List Int)
    (h0 : 0 ≤ t0) (hts : ∀ ti ∈ ts, t0 ≤ ti ∧ ti < 2 ^ 63) :
    runCalls (ts.map (fun ti => Call.stop (startPrometheusDuration (some a) t0) ti)) s
      = .ok { s with
          heap := s.heap.set a { h with
            observations :=
              h.observations ++ ts.map (fun ti => Duration.Seconds (ti - t0)) } } ∧
    (∀ ti ∈ ts, |Duration.Seconds (ti - t0) - ((ti - t0 : ℤ) : ℚ) / 1000000000|
      ≤ ((ti - t0 : ℤ) : ℚ) / 1000000000 / 2 ^ 51) ∧
    (∀ n : Int, 0 ≤ n → n ≤ 2 ^ 53 → Duration.Seconds (n * 1000000000) = (n : ℚ)) := by
  refine ⟨?_, ?_, Duration.Seconds_whole⟩
  · rw [runCalls_stops a t0 ts s h ha]
    have e : ts.map (fun ti => Duration.Seconds (timeSince ti t0))
        = ts.map (fun ti => Duration.Seconds (ti - t0)) := by
      apply List.map_congr_left
      intro ti hti
      rw [timeSince_eq ti t0 h0 (hts ti hti).1 (hts ti hti).2]
    rw [e]
  · intro ti hti
    exact Duration.Seconds_accurate (ti - t0) (by have := (hts ti hti).1; omega)
      (by have := (hts ti hti).2; omega)

/-- C7 on a freshly initialised registry: a timer on the request-duration
histogram started at clock reading 100 and stopped 2 s and again 3 s later
records the observations 2 and 3 there, and nothing in the other two
histograms. -/
theorem stop_closure_records_elapsed_witness :
    ∃ s' : State,
      runCalls
        [Call.stop (startPrometheusDuration (State.fresh ":8081").prometheusRequestDuration 100)
           2000000100,
         Call.stop (startPrometheusDuration (State.fresh ":8081").prometheusRequestDuration 100)
           3000000100]
        (State.fresh ":8081") = .ok s' ∧
      s'.heap.map (fun m => m.observations) = [[2, 3], [], []] := by
  obtain ⟨hrun, -, hw⟩ :=
    stop_closure_records_elapsed (State.fresh ":8081") 0
      { desc := { Name := "request_duration_seconds",
                  Help := "A histogram of the response latency.", labelNames := [] },
        observations := [] }
      rfl 100 [2000000100, 3000000100] (by norm_num)
      (by intro ti hti; simp at hti; rcases hti with rfl | rfl <;> norm_num)
  refine ⟨_, hrun, ?_⟩
  have e2 := hw 2 (by norm_num) (by norm_num)
  have e3 := hw 3 (by norm_num) (by norm_num)
  norm_num at e2 e3
  simp [State.fresh, e2, e3]

end Imgproxy
